import Mathlib

/-!
Verification of the DTC Initium client (`dtcinitium.py`) against its
natural-language specification.

Shallow embedding conventions:
* Python strings are embedded as `List Char`; `str.split`, `str.strip` and
  `int(...)` are embedded by the executable functions `pySplit`, `pyStrip`
  and `pyInt` below (`int` is modelled for non-negative decimal literals,
  which covers every string reachable in the modelled code paths).
* Python exceptions (`ValueError`, `KeyError`, `RuntimeError`) are embedded
  as the `Except String` monad; any raise is an `Except.error`.
* Python dictionaries keyed by scanner id or table id are embedded as
  functions `Nat → Option _`; indexing (`d[k]`, raising `KeyError`) is
  `dictGet`.
* The socket is embedded as a byte stream `List Nat`; `recv(n)` either
  yields exactly `n` bytes or faults (transport timeout / short read).
-/

/-! ### Python string primitives -/

/-- Embedding of Python `str.split(sep)` on character lists. -/
def pySplit (sep : Char) : List Char → List (List Char)
  | [] => [[]]
  | c :: cs =>
    match pySplit sep cs with
    | [] => [[]]
    | h :: t => if c = sep then [] :: h :: t else (c :: h) :: t

/-- Embedding of Python `str.strip()`: drop leading and trailing whitespace. -/
def pyStrip (l : List Char) : List Char :=
  ((l.dropWhile Char.isWhitespace).reverse.dropWhile Char.isWhitespace).reverse

/-- Numeric value of a decimal digit character. -/
def digitVal (c : Char) : Nat := c.toNat - 48

/-- Embedding of Python `int(s)` for non-negative decimal strings:
`some` value on a non-empty all-digit string, `none` otherwise. -/
def toNatDigits (l : List Char) : Option Nat :=
  if l ≠ [] ∧ l.all Char.isDigit then
    some (l.foldl (fun a c => 10 * a + digitVal c) 0)
  else none

/-- Python `int(s)` as an `Except` (raises `ValueError` on a bad literal). -/
def pyInt (l : List Char) : Except String Nat :=
  match toNatDigits l with
  | some n => .ok n
  | none => .error "invalid literal for int"

/-- Decimal rendering of a natural number (Python `"%d" % n`), with fuel
for structural recursion; `natChars` supplies sufficient fuel. -/
def natCharsAux : Nat → Nat → List Char
  | 0, _ => []
  | fuel + 1, n =>
    if n < 10 then [Nat.digitChar n]
    else natCharsAux fuel (n / 10) ++ [Nat.digitChar (n % 10)]

/-- Decimal rendering of a natural number (Python `"%d" % n`). -/
def natChars (n : Nat) : List Char := natCharsAux (n + 1) n

/-- Python `str(...)` rendering of a list of strings, e.g.
`str(["101"]) = "['101']"`; used to embed the `scanner_port(lims)` slip in
`count_ports_aux`, which passes the split list itself instead of its head. -/
def pyStrOfList (ls : List (List Char)) : List Char :=
  Char.ofNat 91 ::
    (List.intercalate [Char.ofNat 44, Char.ofNat 32]
      (ls.map (fun l => Char.ofNat 39 :: l ++ [Char.ofNat 39]))) ++ [Char.ofNat 93]

/-- True exactly when an `Except` computation raised. -/
def isErr {ε α : Type} : Except ε α → Bool
  | .error _ => true
  | .ok _ => false

/-- Dictionary lookup, raising `KeyError` when the key is absent. -/
def dictGet (d : Nat → Option Nat) (k : Nat) : Except String Nat :=
  match d k with
  | some v => .ok v
  | none => .error "KeyError"

/-! ### Port name handling (`parse_range`, `scanner_port`) -/

/-- Embedding of module-level `parse_range`: split on a dash, parse the
pieces as integers, reject more than two pieces. -/
def parse_range (l : List Char) : Except String (List Nat) := do
  let lims ← (pySplit (Char.ofNat 45) l).mapM pyInt
  if lims.length > 2 then .error "Expected x-y where x and y are integers"
  else .ok lims

/-- Embedding of module-level `scanner_port`: a port name must be a
three-character string `XYZ`; returns `(int(s[0]), int(s[1:]))`. -/
def scanner_port (l : List Char) : Except String (Nat × Nat) := do
  if l.length ≠ 3 then .error "Port is not a valid port"
  else do
    let sc ← pyInt (l.take 1)
    let p ← pyInt (l.drop 1)
    .ok (sc, p)

/-! ### The `Scanners` class -/

/-- One parsed scanner group: `(scanner id list, ports per scanner, lrn)`,
the tuples stored in `Scanners.scanners`. -/
structure ScnGroup where
  ids : List Nat
  npp : Nat
  lrn : Nat
deriving DecidableEq

/-- Range specification accepted by `Scanners.range_list`: an integer or a
string such as `"1-8"`. -/
inductive RangeSpec
  | int (n : Nat)
  | str (s : List Char)
deriving DecidableEq

/-- Scanner specification item accepted by `Scanners.parse_scanner`: an
integer, a range string, or a `(range, npp, lrn)` triple. -/
inductive ScnItem
  | int (n : Nat)
  | str (s : List Char)
  | triple (r : RangeSpec) (npp : Nat) (lrn : Nat)
deriving DecidableEq

/-- Embedding of `Scanners.range_list`. -/
def range_list (r : RangeSpec) : Except String (List Nat) :=
  match r with
  | .int n => .ok [n]
  | .str s => do
    let lims ← parse_range s
    match lims with
    | [a, b] => .ok (List.range' a (b + 1 - a))
    | [a] => .ok [a]
    | _ => .error "Integer or range (as string) expected"

/-- Embedding of `Scanners.parse_scanner` with the model-wide defaults
`npp` and `lrn`. -/
def parse_scanner (npp lrn : Nat) (s : ScnItem) : Except String ScnGroup :=
  match s with
  | .int n => .ok ⟨[n], npp, lrn⟩
  | .str str => do
    let ids ← range_list (.str str)
    .ok ⟨ids, npp, lrn⟩
  | .triple r n l => do
    let ids ← range_list r
    .ok ⟨ids, n, l⟩

/-- The `nports` dictionary built by `Scanners.__init__`: iterate over the
groups in order and, inside each group, over its scanner ids, overwriting
the entry for each id with that group's ports-per-scanner. -/
def buildNports (gs : List ScnGroup) : Nat → Option Nat :=
  gs.foldl
    (fun d g => g.ids.foldl (fun d s => fun k => if k = s then some g.npp else d k) d)
    (fun _ => none)

/-- Result of `Scanners.__init__`: the parsed group list and the derived
scanner-id → ports-per-scanner dictionary. -/
structure ScannersModel where
  scanners : List ScnGroup
  nports : Nat → Option Nat

/-- Embedding of `Scanners.__init__` on a scanner list (`scn` already in
list form; the constructor wraps a non-list argument in a one-element
list). -/
def scannersInit (scn : List ScnItem) (npp lrn : Nat) : Except String ScannersModel := do
  let gs ← scn.mapM (parse_scanner npp lrn)
  .ok ⟨gs, buildNports gs⟩

/-! ### `list_ports` (the spec's `expand`) -/

/-- The membership-validation loop of `list_ports_aux`:
`for i in range(s1, s2+1): if not i in self.nports: raise`. -/
def checkScanners (nports : Nat → Option Nat) : List Nat → Except String Unit
  | [] => .ok ()
  | i :: rest =>
    if (nports i).isSome then checkScanners nports rest
    else .error "Scanner not configured or available"

/-- The intermediate-scanner extension loop of `list_ports_aux`:
`for i in range(s1+1, s2): ports.extend([i*100+k for k in range(1, nports[i]+1)])`. -/
def extendMid (nports : Nat → Option Nat) (acc : List Nat) :
    List Nat → Except String (List Nat)
  | [] => .ok acc
  | i :: rest => do
    let ni ← dictGet nports i
    extendMid nports (acc ++ (List.range' 1 ni).map (fun k => i * 100 + k)) rest

/-- Embedding of `Scanners.list_ports_aux`.  Source quirks preserved:
the single-port branch looks `nports[s1]` up (a possible `KeyError`)
before its dead membership check, and its lower-bound test is `p1 < 0`
(vacuous over naturals, as over Python's non-negative parse results), so
port number 0 passes; the range branch checks only `p1 < 1` on the start
and `p2 > n2` on the end. -/
def list_ports_aux_lims (nports : Nat → Option Nat) (p : List Char) :
    List (List Char) → Except String (List Nat)
  | [l0] => do
    let sp ← scanner_port p
    let n1 ← dictGet nports sp.1
    if (nports sp.1).isNone then .error "Scanner not configured or available"
    else if sp.2 > n1 then .error "Port is not valid"
    else do
      let v ← pyInt l0
      .ok [v]
  | l0 :: l1 :: _ => do
    let sp1 ← scanner_port l0
    let n1 ← dictGet nports sp1.1
    let sp2 ← scanner_port l1
    let n2 ← dictGet nports sp2.1
    checkScanners nports (List.range' sp1.1 (sp2.1 + 1 - sp1.1))
    if sp1.2 < 1 then .error "Port is not valid"
    else if sp2.2 > n2 then .error "Port is not valid"
    else if sp1.1 = sp2.1 then
      .ok ((List.range' sp1.2 (sp2.2 + 1 - sp1.2)).map (fun i => sp1.1 * 100 + i))
    else do
      let ports ← extendMid nports
        ((List.range' sp1.2 (n1 + 1 - sp1.2)).map (fun i => sp1.1 * 100 + i))
        (List.range' (sp1.1 + 1) (sp2.1 - (sp1.1 + 1)))
      .ok (if sp2.1 > sp1.1 then
            ports ++ (List.range' 1 sp2.2).map (fun k => sp2.1 * 100 + k)
          else ports)
  | [] => .error "unreachable: split never returns an empty list"

/-- Embedding of `Scanners.list_ports_aux`: split the port specification on
the dash, strip the pieces, and dispatch on the number of pieces. -/
def list_ports_aux (nports : Nat → Option Nat) (p : List Char) :
    Except String (List Nat) :=
  list_ports_aux_lims nports p ((pySplit (Char.ofNat 45) p).map pyStrip)

/-- The duplicate check of `list_ports`:
`for i in p1: if i in ports: raise`. -/
def checkDup (ports : List Nat) : List Nat → Except String Unit
  | [] => .ok ()
  | i :: rest =>
    if i ∈ ports then .error "Repeated ports not supported"
    else checkDup ports rest

/-- The accumulating loop of `Scanners.list_ports`. -/
def list_ports_go (nports : Nat → Option Nat) (ports : List Nat) :
    List (List Char) → Except String (List Nat)
  | [] => .ok ports
  | p :: rest => do
    let p1 ← list_ports_aux nports p
    checkDup ports p1
    list_ports_go nports (ports ++ p1) rest

/-- Embedding of `Scanners.list_ports` (the spec's `expand`). -/
def list_ports (nports : Nat → Option Nat) (plst : List (List Char)) :
    Except String (List Nat) :=
  list_ports_go nports [] plst

/-! ### `count_ports` (the spec's `count`) -/

/-- The scanner-summing loop of `count_ports_aux`. -/
def sumScanners (nports : Nat → Option Nat) (nn : Int) :
    List Nat → Except String Int
  | [] => .ok nn
  | i :: rest =>
    match nports i with
    | some v => sumScanners nports (nn + (v : Int)) rest
    | none => .error "Scanner not configured"

/-- Embedding of `Scanners.count_ports_aux`.  Source quirk preserved: the
single-port branch calls `scanner_port(lims)` on the split *list* itself
(not `lims[0]`), so `scanner_port` receives Python's string rendering of a
list — never three characters long — and always raises. -/
def count_ports_aux_lims (nports : Nat → Option Nat) :
    List (List Char) → Except String Int
  | [l0] => do
    let sp ← scanner_port (pyStrOfList [l0])
    if (nports sp.1).isNone then .error "Port not valid"
    else .ok 1
  | l0 :: l1 :: _ => do
    let sp1 ← scanner_port l0
    let sp2 ← scanner_port l1
    let nn ← sumScanners nports 0 (List.range' sp1.1 (sp2.1 + 1 - sp1.1))
    let nn ←
      if sp1.2 > 1 then .ok (nn - ((sp1.2 : Int) - 1))
      else if sp1.2 = 0 then .error "Port not valid"
      else .ok nn
    let ns2 ← dictGet nports sp2.1
    let nn ←
      if sp2.2 < ns2 then .ok (nn - ((ns2 : Int) - (sp2.2 : Int)))
      else if sp2.2 > ns2 then .error "Port not valid"
      else .ok nn
    .ok nn
  | [] => .error "unreachable: split never returns an empty list"

/-- Embedding of `Scanners.count_ports_aux`: split on the dash, strip, and
dispatch on the number of pieces. -/
def count_ports_aux (nports : Nat → Option Nat) (p : List Char) :
    Except String Int :=
  count_ports_aux_lims nports ((pySplit (Char.ofNat 45) p).map pyStrip)

/-- Embedding of `Scanners.count_ports` (the spec's `count`): sum of the
per-range counts. -/
def count_ports (nports : Nat → Option Nat) (plst : List (List Char)) :
    Except String Int := do
  let ns ← plst.mapM (count_ports_aux nports)
  .ok ns.sum

/-! ### Concrete port-string builders used in theorem statements -/

/-- The three-character port code string `XYZ` for scanner `s` and port
number `p` (scanner digit followed by the two-digit port number). -/
def portChars (s p : Nat) : List Char :=
  [Nat.digitChar s, Nat.digitChar (p / 10), Nat.digitChar (p % 10)]

/-- A port range string `"XYZ-XYZ"`. -/
def rangeChars (s1 p1 s2 p2 : Nat) : List Char :=
  portChars s1 p1 ++ Char.ofNat 45 :: portChars s2 p2

/-- The scanner configuration `1,2,3` with 64 ports each. -/
def np3 : Nat → Option Nat := buildNports [⟨List.range' 1 3, 64, 1⟩]

/-! ### Lemmas about the string primitives -/

theorem exBind_ok {ε α β : Type} (a : α) (f : α → Except ε β) :
    (Except.ok a >>= f) = f a := rfl

theorem exBind_error {ε α β : Type} (e : ε) (f : α → Except ε β) :
    ((Except.error e : Except ε α) >>= f) = .error e := rfl

theorem pySplit_ne_nil (sep : Char) (l : List Char) : pySplit sep l ≠ [] := by
  cases l with
  | nil => simp [pySplit]
  | cons c cs =>
    simp only [pySplit]
    cases pySplit sep cs with
    | nil => simp
    | cons a t => by_cases hc : c = sep <;> simp [hc]

theorem pySplit_of_not_mem {sep : Char} {l : List Char} (h : sep ∉ l) :
    pySplit sep l = [l] := by
  induction l with
  | nil => rfl
  | cons c cs ih =>
    have hc : ¬(c = sep) := fun hcs => h (hcs ▸ List.mem_cons_self c cs)
    have hr := ih (fun hm => h (List.mem_cons_of_mem _ hm))
    simp [pySplit, hr, hc]

theorem pySplit_append {sep : Char} {l₁ : List Char} (l₂ : List Char) (h : sep ∉ l₁) :
    pySplit sep (l₁ ++ sep :: l₂) = l₁ :: pySplit sep l₂ := by
  induction l₁ with
  | nil =>
    simp only [List.nil_append, pySplit]
    cases hp : pySplit sep l₂ with
    | nil => exact absurd hp (pySplit_ne_nil _ _)
    | cons a t => simp
  | cons c cs ih =>
    have hc : ¬(c = sep) := fun hcs => h (hcs ▸ List.mem_cons_self c cs)
    have hr := ih (fun hm => h (List.mem_cons_of_mem _ hm))
    rw [List.cons_append]
    simp only [pySplit]
    rw [hr]
    simp [hc]

/-- A list of characters all of which are decimal-digit characters. -/
def DigitLike (l : List Char) : Prop := ∀ c ∈ l, ∃ d, d < 10 ∧ c = Nat.digitChar d

theorem digitChar_isDigit : ∀ d, d < 10 → (Nat.digitChar d).isDigit = true := by decide

theorem digitVal_digitChar : ∀ d, d < 10 → digitVal (Nat.digitChar d) = d := by decide

theorem digitChar_ne_dash : ∀ d, d < 10 → Nat.digitChar d ≠ Char.ofNat 45 := by decide

theorem digitChar_not_ws : ∀ d, d < 10 → (Nat.digitChar d).isWhitespace = false := by decide

theorem dash_not_mem_of_digitLike {l : List Char} (h : DigitLike l) :
    Char.ofNat 45 ∉ l := by
  intro hm
  obtain ⟨d, hd, hc⟩ := h _ hm
  exact digitChar_ne_dash d hd hc.symm

theorem dropWhile_eq_self_of_false {p : Char → Bool} {l : List Char}
    (h : ∀ c ∈ l, p c = false) : l.dropWhile p = l := by
  cases l with
  | nil => rfl
  | cons c cs => simp [List.dropWhile_cons, h c (List.mem_cons_self c cs)]

theorem pyStrip_of_digitLike {l : List Char} (h : DigitLike l) : pyStrip l = l := by
  have hws : ∀ c ∈ l, c.isWhitespace = false := by
    intro c hc
    obtain ⟨d, hd, rfl⟩ := h c hc
    exact digitChar_not_ws d hd
  unfold pyStrip
  rw [dropWhile_eq_self_of_false hws,
    dropWhile_eq_self_of_false (fun c hc => hws c (List.mem_reverse.1 hc)),
    List.reverse_reverse]

theorem all_isDigit_of_digitLike {l : List Char} (h : DigitLike l) :
    l.all Char.isDigit = true := by
  rw [List.all_eq_true]
  intro c hc
  obtain ⟨d, hd, rfl⟩ := h c hc
  exact digitChar_isDigit d hd

theorem digitLike_portChars {s p : Nat} (hs : s < 10) (hp : p < 100) :
    DigitLike (portChars s p) := by
  intro c hc
  simp only [portChars, List.mem_cons, List.not_mem_nil, or_false] at hc
  rcases hc with rfl | rfl | rfl
  · exact ⟨s, hs, rfl⟩
  · exact ⟨p / 10, by omega, rfl⟩
  · exact ⟨p % 10, by omega, rfl⟩

theorem toNatDigits_of_digits {l : List Char} (hne : l ≠ [])
    (hall : l.all Char.isDigit = true) :
    toNatDigits l = some (l.foldl (fun a c => 10 * a + digitVal c) 0) := by
  simp [toNatDigits, hne, hall]

theorem pyInt_portChars {s p : Nat} (hs : s < 10) (hp : p < 100) :
    pyInt (portChars s p) = .ok (100 * s + p) := by
  have h := @toNatDigits_of_digits (portChars s p) (by simp [portChars])
    (all_isDigit_of_digitLike (digitLike_portChars hs hp))
  rw [pyInt, h]
  simp only [portChars, List.foldl_cons, List.foldl_nil,
    digitVal_digitChar s hs, digitVal_digitChar (p / 10) (by omega : p / 10 < 10),
    digitVal_digitChar (p % 10) (by omega : p % 10 < 10)]
  congr 1
  omega

theorem scanner_port_portChars {s p : Nat} (hs : s < 10) (hp : p < 100) :
    scanner_port (portChars s p) = .ok (s, p) := by
  have h1 : toNatDigits [Nat.digitChar s] = some s := by
    rw [toNatDigits_of_digits (by simp) (by simp [digitChar_isDigit s hs])]
    simp [digitVal_digitChar s hs]
  have h2 : toNatDigits [Nat.digitChar (p / 10), Nat.digitChar (p % 10)] = some p := by
    rw [toNatDigits_of_digits (by simp)
      (by simp [digitChar_isDigit (p / 10) (by omega : p / 10 < 10),
        digitChar_isDigit (p % 10) (by omega : p % 10 < 10)])]
    simp only [List.foldl_cons, List.foldl_nil,
      digitVal_digitChar (p / 10) (by omega : p / 10 < 10),
      digitVal_digitChar (p % 10) (by omega : p % 10 < 10)]
    congr 1
    omega
  simp [scanner_port, portChars, pyInt, h1, h2, exBind_ok]

theorem natCharsAux_spec (fuel : Nat) : ∀ n, n < fuel →
    natCharsAux fuel n ≠ [] ∧ DigitLike (natCharsAux fuel n) ∧
    (natCharsAux fuel n).foldl (fun a c => 10 * a + digitVal c) 0 = n := by
  induction fuel with
  | zero => intro n h; omega
  | succ fuel ih =>
    intro n h
    by_cases h10 : n < 10
    · refine ⟨by simp [natCharsAux, h10], ?_, ?_⟩
      · intro c hc
        simp [natCharsAux, h10] at hc
        exact ⟨n, h10, hc⟩
      · simp [natCharsAux, h10, digitVal_digitChar n h10]
    · have hn0 : 0 < n := by omega
      have hdivlt : n / 10 < n := Nat.div_lt_self hn0 (by norm_num)
      have hdiv : n / 10 < fuel := by omega
      obtain ⟨hne, hdl, hval⟩ := ih (n / 10) hdiv
      refine ⟨by simp [natCharsAux, h10], ?_, ?_⟩
      · intro c hc
        simp only [natCharsAux, h10, if_false, List.mem_append, List.mem_cons,
          List.not_mem_nil, or_false] at hc
        rcases hc with hc | rfl
        · exact hdl c hc
        · exact ⟨n % 10, by omega, rfl⟩
      · simp only [natCharsAux, h10, if_false, List.foldl_append, hval,
          List.foldl_cons, List.foldl_nil, digitVal_digitChar (n % 10) (by omega : n % 10 < 10)]
        omega

theorem natChars_ne_nil (n : Nat) : natChars n ≠ [] :=
  (natCharsAux_spec (n + 1) n (Nat.lt_succ_self n)).1

theorem digitLike_natChars (n : Nat) : DigitLike (natChars n) :=
  (natCharsAux_spec (n + 1) n (Nat.lt_succ_self n)).2.1

theorem toNatDigits_natChars (n : Nat) : toNatDigits (natChars n) = some n := by
  obtain ⟨hne, hdl, hval⟩ := natCharsAux_spec (n + 1) n (Nat.lt_succ_self n)
  simp only [natChars]
  rw [toNatDigits_of_digits hne (all_isDigit_of_digitLike hdl)]
  exact congrArg some hval

theorem pyInt_natChars (n : Nat) : pyInt (natChars n) = .ok n := by
  simp [pyInt, toNatDigits_natChars]

/-! ### Reduction of `list_ports_aux` on rendered port strings -/

theorem split_portChars {s p : Nat} (hs : s < 10) (hp : p < 100) :
    (pySplit (Char.ofNat 45) (portChars s p)).map pyStrip = [portChars s p] := by
  rw [pySplit_of_not_mem (dash_not_mem_of_digitLike (digitLike_portChars hs hp))]
  simp [pyStrip_of_digitLike (digitLike_portChars hs hp)]

theorem split_rangeChars {s1 p1 s2 p2 : Nat} (hs1 : s1 < 10) (hp1 : p1 < 100)
    (hs2 : s2 < 10) (hp2 : p2 < 100) :
    (pySplit (Char.ofNat 45) (rangeChars s1 p1 s2 p2)).map pyStrip =
      [portChars s1 p1, portChars s2 p2] := by
  rw [rangeChars,
    pySplit_append _ (dash_not_mem_of_digitLike (digitLike_portChars hs1 hp1)),
    pySplit_of_not_mem (dash_not_mem_of_digitLike (digitLike_portChars hs2 hp2))]
  simp [pyStrip_of_digitLike (digitLike_portChars hs1 hp1),
    pyStrip_of_digitLike (digitLike_portChars hs2 hp2)]

theorem list_ports_aux_single {nports : Nat → Option Nat} {s p : Nat}
    (hs : s < 10) (hp : p < 100) :
    list_ports_aux nports (portChars s p) =
      match nports s with
      | none => .error "KeyError"
      | some n1 => if p > n1 then .error "Port is not valid" else .ok [100 * s + p] := by
  rw [list_ports_aux, split_portChars hs hp]
  cases hn : nports s with
  | none =>
    simp [list_ports_aux_lims, scanner_port_portChars hs hp, exBind_ok, exBind_error,
      dictGet, hn]
  | some n1 =>
    simp only [list_ports_aux_lims, scanner_port_portChars hs hp, exBind_ok, dictGet, hn,
      Option.isNone_some, Bool.false_eq_true, if_false]
    simp [pyInt_portChars hs hp, exBind_ok]

theorem list_ports_aux_rangeChars {nports : Nat → Option Nat} {s1 p1 s2 p2 : Nat}
    (hs1 : s1 < 10) (hp1 : p1 < 100) (hs2 : s2 < 10) (hp2 : p2 < 100) :
    list_ports_aux nports (rangeChars s1 p1 s2 p2) = (do
      let n1 ← dictGet nports s1
      let n2 ← dictGet nports s2
      checkScanners nports (List.range' s1 (s2 + 1 - s1))
      if p1 < 1 then .error "Port is not valid"
      else if p2 > n2 then .error "Port is not valid"
      else if s1 = s2 then
        .ok ((List.range' p1 (p2 + 1 - p1)).map (fun i => s1 * 100 + i))
      else do
        let ports ← extendMid nports
          ((List.range' p1 (n1 + 1 - p1)).map (fun i => s1 * 100 + i))
          (List.range' (s1 + 1) (s2 - (s1 + 1)))
        .ok (if s2 > s1 then ports ++ (List.range' 1 p2).map (fun k => s2 * 100 + k)
             else ports)) := by
  rw [list_ports_aux, split_rangeChars hs1 hp1 hs2 hp2]
  simp only [list_ports_aux_lims, scanner_port_portChars hs1 hp1,
    scanner_port_portChars hs2 hp2, exBind_ok]

/-! ### Lemmas about the loops inside `list_ports` -/

theorem checkScanners_ok {nports : Nat → Option Nat} {l : List Nat}
    (h : ∀ i ∈ l, (nports i).isSome) : checkScanners nports l = .ok () := by
  induction l with
  | nil => rfl
  | cons i rest ih =>
    simp [checkScanners, h i (List.mem_cons_self i rest),
      ih (fun j hj => h j (List.mem_cons_of_mem _ hj))]

theorem checkScanners_err {nports : Nat → Option Nat} {l : List Nat}
    (h : ∃ i ∈ l, nports i = none) : isErr (checkScanners nports l) = true := by
  induction l with
  | nil => simp at h
  | cons i rest ih =>
    obtain ⟨j, hj, hnone⟩ := h
    rcases List.mem_cons.1 hj with rfl | hj'
    · simp [checkScanners, hnone, isErr]
    · by_cases hi : (nports i).isSome
      · simp only [checkScanners, hi, if_true]
        exact ih ⟨j, hj', hnone⟩
      · simp [checkScanners, hi, isErr]

theorem extendMid_ok {nports : Nat → Option Nat} {l : List Nat}
    (h : ∀ i ∈ l, (nports i).isSome) :
    ∀ acc, extendMid nports acc l =
      .ok (acc ++ l.flatMap (fun i =>
        (List.range' 1 ((nports i).getD 0)).map (fun k => i * 100 + k))) := by
  induction l with
  | nil => intro acc; simp [extendMid]
  | cons i rest ih =>
    intro acc
    obtain ⟨v, hv⟩ := Option.isSome_iff_exists.1 (h i (List.mem_cons_self i rest))
    rw [extendMid]
    simp [dictGet, hv, exBind_ok, ih (fun j hj => h j (List.mem_cons_of_mem _ hj)),
      List.append_assoc]

theorem checkDup_ok {ports L : List Nat} (h : ∀ i ∈ L, i ∉ ports) :
    checkDup ports L = .ok () := by
  induction L with
  | nil => rfl
  | cons i rest ih =>
    simp [checkDup, h i (List.mem_cons_self i rest),
      ih (fun j hj => h j (List.mem_cons_of_mem _ hj))]

theorem checkDup_err {ports L : List Nat} (h : ∃ i ∈ L, i ∈ ports) :
    isErr (checkDup ports L) = true := by
  induction L with
  | nil => simp at h
  | cons i rest ih =>
    obtain ⟨j, hj, hin⟩ := h
    rcases List.mem_cons.1 hj with rfl | hj'
    · simp [checkDup, hin, isErr]
    · by_cases hi : i ∈ ports
      · simp [checkDup, hi, isErr]
      · simp only [checkDup, hi, if_false]
        exact ih ⟨j, hj', hin⟩

theorem list_ports_go_ok {nports : Nat → Option Nat} :
    ∀ (plst : List (List Char)) (Ls : List (List Nat)) (acc : List Nat),
      plst.mapM (list_ports_aux nports) = .ok Ls →
      (∀ L ∈ Ls, ∀ x ∈ L, x ∉ acc) →
      List.Pairwise List.Disjoint Ls →
      list_ports_go nports acc plst = .ok (acc ++ Ls.flatten) := by
  intro plst
  induction plst with
  | nil =>
    intro Ls acc hmap hacc hpw
    simp only [List.mapM_nil, pure] at hmap
    cases hmap
    simp [list_ports_go]
  | cons p rest ih =>
    intro Ls acc hmap hacc hpw
    rw [List.mapM_cons] at hmap
    cases haux : list_ports_aux nports p with
    | error e => rw [haux] at hmap; simp [exBind_error] at hmap
    | ok L =>
      rw [haux] at hmap
      cases hrest : rest.mapM (list_ports_aux nports) with
      | error e => rw [hrest] at hmap; simp [exBind_ok, exBind_error] at hmap
      | ok Ls' =>
        rw [hrest] at hmap
        simp only [exBind_ok, pure] at hmap
        cases hmap
        rw [list_ports_go, haux, exBind_ok,
          checkDup_ok (fun i hi => hacc L (List.mem_cons_self L Ls') i hi), exBind_ok]
        rw [ih Ls' (acc ++ L) hrest ?_ (List.Pairwise.sublist (List.sublist_cons_self L Ls') hpw)]
        · simp [List.append_assoc]
        · intro L' hL' x hx
          simp only [List.mem_append, not_or]
          refine ⟨hacc L' (List.mem_cons_of_mem _ hL') x hx, ?_⟩
          intro hxL
          exact (List.pairwise_cons.1 hpw).1 L' hL' hxL hx

theorem list_ports_go_err {nports : Nat → Option Nat} :
    ∀ (plst : List (List Char)) (Ls : List (List Nat)) (acc : List Nat),
      plst.mapM (list_ports_aux nports) = .ok Ls →
      (∃ j, ∃ hj : j < Ls.length, ∃ x ∈ Ls[j], x ∈ acc ++ (Ls.take j).flatten) →
      isErr (list_ports_go nports acc plst) = true := by
  intro plst
  induction plst with
  | nil =>
    intro Ls acc hmap hw
    simp only [List.mapM_nil, pure] at hmap
    cases hmap
    obtain ⟨j, hj, _⟩ := hw
    simp at hj
  | cons p rest ih =>
    intro Ls acc hmap hw
    rw [List.mapM_cons] at hmap
    cases haux : list_ports_aux nports p with
    | error e => rw [haux] at hmap; simp [exBind_error] at hmap
    | ok L =>
      rw [haux] at hmap
      cases hrest : rest.mapM (list_ports_aux nports) with
      | error e => rw [hrest] at hmap; simp [exBind_ok, exBind_error] at hmap
      | ok Ls' =>
        rw [hrest] at hmap
        simp only [exBind_ok, pure] at hmap
        cases hmap
        rw [list_ports_go, haux, exBind_ok]
        obtain ⟨j, hj, x, hxL, hxacc⟩ := hw
        cases j with
        | zero =>
          simp only [List.take_zero, List.flatten_nil, List.append_nil] at hxacc
          cases hdup : checkDup acc L with
          | error e => simp [isErr, exBind_error]
          | ok u =>
            have := @checkDup_err acc L ⟨x, hxL, hxacc⟩
            rw [hdup] at this
            simp [isErr] at this
        | succ j' =>
          cases hdup : checkDup acc L with
          | error e => simp [isErr, exBind_error]
          | ok u =>
            cases u
            rw [exBind_ok]
            apply ih Ls' (acc ++ L) hrest
            refine ⟨j', by simpa using hj, x, by simpa using hxL, ?_⟩
            simp only [List.take_succ_cons, List.flatten_cons] at hxacc
            simpa [List.append_assoc] using hxacc

theorem list_ports_single_err {nports : Nat → Option Nat} {p : List Char}
    (h : isErr (list_ports_aux nports p) = true) :
    isErr (list_ports nports [p]) = true := by
  rw [list_ports, list_ports_go]
  cases haux : list_ports_aux nports p with
  | error e => simp [exBind_error, isErr]
  | ok L => rw [haux] at h; simp [isErr] at h

/-! ### Claim C1 -/

/-- C1: for every configured scanner set, expanding a valid cross-scanner
port range string `"XYZ-XYZ"` yields the full ascending sequence of port
codes — start port up to the last valid port of the first scanner, all
ports of every intermediate scanner, then ports 1..end of the last
scanner; expanding a list of ranges concatenates the per-range expansions
in the order supplied; and on scanners 1,2,3 with 64 ports each,
`expand(["101-102","201-201","301-302"]) = [101,102,201,301,302]`. -/
theorem c1_expand :
    (∀ (nports : Nat → Option Nat) (s1 p1 s2 p2 n1 n2 : Nat),
      s1 < 10 → p1 < 100 → s2 < 10 → p2 < 100 → s1 < s2 →
      nports s1 = some n1 → nports s2 = some n2 →
      (∀ i, s1 ≤ i → i ≤ s2 → (nports i).isSome) →
      1 ≤ p1 → p1 ≤ n1 → 1 ≤ p2 → p2 ≤ n2 →
      list_ports_aux nports (rangeChars s1 p1 s2 p2) =
        .ok ((List.range' p1 (n1 + 1 - p1)).map (fun i => s1 * 100 + i) ++
          (List.range' (s1 + 1) (s2 - (s1 + 1))).flatMap (fun i =>
            (List.range' 1 ((nports i).getD 0)).map (fun k => i * 100 + k)) ++
          (List.range' 1 p2).map (fun k => s2 * 100 + k))) ∧
    (∀ (nports : Nat → Option Nat) (plst : List (List Char)) (Ls : List (List Nat)),
      plst.mapM (list_ports_aux nports) = .ok Ls →
      List.Pairwise List.Disjoint Ls →
      list_ports nports plst = .ok Ls.flatten) ∧
    list_ports np3 [rangeChars 1 1 1 2, rangeChars 2 1 2 1, rangeChars 3 1 3 2] =
      .ok [101, 102, 201, 301, 302] := by
  refine ⟨?_, ?_, rfl⟩
  · intro nports s1 p1 s2 p2 n1 n2 hs1 hp1 hs2 hp2 hlt hn1 hn2 hall h1p1 hp1n1 h1p2 hp2n2
    rw [list_ports_aux_rangeChars hs1 hp1 hs2 hp2]
    have hchk : checkScanners nports (List.range' s1 (s2 + 1 - s1)) = .ok () := by
      apply checkScanners_ok
      intro i hi
      rw [List.mem_range'_1] at hi
      exact hall i hi.1 (by omega)
    have hmid : ∀ i ∈ List.range' (s1 + 1) (s2 - (s1 + 1)), (nports i).isSome := by
      intro i hi
      rw [List.mem_range'_1] at hi
      exact hall i (by omega) (by omega)
    simp only [dictGet, hn1, hn2, exBind_ok, hchk]
    rw [if_neg (by omega : ¬p1 < 1), if_neg (by omega : ¬p2 > n2),
      if_neg (by omega : ¬s1 = s2), extendMid_ok hmid, exBind_ok, if_pos hlt]
  · intro nports plst Ls hmap hpw
    rw [list_ports, list_ports_go_ok plst Ls [] hmap (by intro L hL x hx; simp) hpw]
    simp

/-- Witness for C1 at concrete inputs: the cross-scanner range
`"163-302"` on scanners 1,2,3 with 64 ports each, and the concatenation
of `["101","201"]`. -/
theorem c1_expand_witness :
    (list_ports_aux np3 (rangeChars 1 63 3 2) =
      .ok ((List.range' 63 (64 + 1 - 63)).map (fun i => 1 * 100 + i) ++
        (List.range' (1 + 1) (3 - (1 + 1))).flatMap (fun i =>
          (List.range' 1 ((np3 i).getD 0)).map (fun k => i * 100 + k)) ++
        (List.range' 1 2).map (fun k => 3 * 100 + k))) ∧
    list_ports np3 [portChars 1 1, portChars 2 1] = .ok [[101], [201]].flatten := by
  constructor
  · exact c1_expand.1 np3 1 63 3 2 64 64 (by norm_num) (by norm_num) (by norm_num)
      (by norm_num) (by norm_num) rfl rfl
      (by intro i h1 h3; interval_cases i <;> rfl)
      (by norm_num) (by norm_num) (by norm_num) (by norm_num)
  · exact c1_expand.2.1 np3 [portChars 1 1, portChars 2 1] [[101], [201]] rfl
      (by simp [List.pairwise_cons, List.Disjoint])

/-! ### Claim C2 -/

/-- C2 counterexample: the claim says a start or end port number outside
`1..ports_per_scanner` raises a validation fault, but `expand(["100"])` on
scanners 1,2,3 with 64 ports each (port number 0, outside 1..64) succeeds
and returns `[100]`. -/
theorem c2_counterexample :
    list_ports np3 [portChars 1 0] = .ok [100] ∧ np3 1 = some 64 := ⟨rfl, rfl⟩

/-- C2 amended: `expand` raises when a referenced scanner is unconfigured,
when a single port number exceeds its scanner's port count, when a range's
start port number is 0, when a range's end port number exceeds the end
scanner's port count, or when a port code repeats across the supplied
ranges (in particular on `["101-103","102"]`); the remaining bound checks
of the original claim (single port number 0, range start above the first
scanner's port count, range end number 0) are not performed. -/
theorem c2_amended :
    (∀ (nports : Nat → Option Nat) (s p : Nat), s < 10 → p < 100 →
      nports s = none → isErr (list_ports nports [portChars s p]) = true) ∧
    (∀ (nports : Nat → Option Nat) (s p n : Nat), s < 10 → p < 100 →
      nports s = some n → p > n → isErr (list_ports nports [portChars s p]) = true) ∧
    (∀ (nports : Nat → Option Nat) (s1 p1 s2 p2 : Nat),
      s1 < 10 → p1 < 100 → s2 < 10 → p2 < 100 →
      (∃ i, s1 ≤ i ∧ i ≤ s2 ∧ nports i = none) →
      isErr (list_ports nports [rangeChars s1 p1 s2 p2]) = true) ∧
    (∀ (nports : Nat → Option Nat) (s1 s2 p2 : Nat), s1 < 10 → s2 < 10 → p2 < 100 →
      isErr (list_ports nports [rangeChars s1 0 s2 p2]) = true) ∧
    (∀ (nports : Nat → Option Nat) (s1 p1 s2 p2 n2 : Nat),
      s1 < 10 → p1 < 100 → s2 < 10 → p2 < 100 →
      nports s2 = some n2 → p2 > n2 →
      isErr (list_ports nports [rangeChars s1 p1 s2 p2]) = true) ∧
    (∀ (nports : Nat → Option Nat) (plst : List (List Char)) (Ls : List (List Nat))
      (i j : Nat), ∀ hi : i < Ls.length, ∀ hj : j < Ls.length, ∀ x : Nat,
      plst.mapM (list_ports_aux nports) = .ok Ls → i < j → x ∈ Ls[i] → x ∈ Ls[j] →
      isErr (list_ports nports plst) = true) ∧
    isErr (list_ports np3 [rangeChars 1 1 1 3, portChars 1 2]) = true := by
  refine ⟨?_, ?_, ?_, ?_, ?_, ?_, rfl⟩
  · intro nports s p hs hp hn
    apply list_ports_single_err
    rw [list_ports_aux_single hs hp, hn]
    rfl
  · intro nports s p n hs hp hn hpn
    apply list_ports_single_err
    rw [list_ports_aux_single hs hp, hn]
    simp [if_pos hpn, isErr]
  · intro nports s1 p1 s2 p2 hs1 hp1 hs2 hp2 hex
    obtain ⟨i, hi1, hi2, hnone⟩ := hex
    apply list_ports_single_err
    rw [list_ports_aux_rangeChars hs1 hp1 hs2 hp2]
    cases hn1 : nports s1 with
    | none => simp [dictGet, hn1, exBind_error, isErr]
    | some n1 =>
      cases hn2 : nports s2 with
      | none => simp [dictGet, hn1, hn2, exBind_ok, exBind_error, isErr]
      | some n2 =>
        have hmem : i ∈ List.range' s1 (s2 + 1 - s1) := by
          rw [List.mem_range'_1]; omega
        have hchk := @checkScanners_err nports _ ⟨i, hmem, hnone⟩
        simp only [dictGet, hn1, hn2, exBind_ok]
        cases hcs : checkScanners nports (List.range' s1 (s2 + 1 - s1)) with
        | error e => simp [exBind_error, isErr]
        | ok u => rw [hcs] at hchk; simp [isErr] at hchk
  · intro nports s1 s2 p2 hs1 hs2 hp2
    apply list_ports_single_err
    rw [list_ports_aux_rangeChars hs1 (by norm_num) hs2 hp2]
    cases hn1 : nports s1 with
    | none => simp [dictGet, hn1, exBind_error, isErr]
    | some n1 =>
      cases hn2 : nports s2 with
      | none => simp [dictGet, hn1, hn2, exBind_ok, exBind_error, isErr]
      | some n2 =>
        simp only [dictGet, hn1, hn2, exBind_ok]
        cases hcs : checkScanners nports (List.range' s1 (s2 + 1 - s1)) with
        | error e => simp [exBind_error, isErr]
        | ok u =>
          cases u
          rw [exBind_ok, if_pos (by norm_num : (0 : Nat) < 1)]
          rfl
  · intro nports s1 p1 s2 p2 n2 hs1 hp1 hs2 hp2 hn2 hgt
    apply list_ports_single_err
    rw [list_ports_aux_rangeChars hs1 hp1 hs2 hp2]
    cases hn1 : nports s1 with
    | none => simp [dictGet, hn1, exBind_error, isErr]
    | some n1 =>
      simp only [dictGet, hn1, hn2, exBind_ok]
      cases hcs : checkScanners nports (List.range' s1 (s2 + 1 - s1)) with
      | error e => simp [exBind_error, isErr]
      | ok u =>
        cases u
        rw [exBind_ok]
        by_cases hp1' : p1 < 1
        · rw [if_pos hp1']; rfl
        · rw [if_neg hp1', if_pos hgt]; rfl
  · intro nports plst Ls i j hi hj x hmap hij hxi hxj
    rw [list_ports]
    apply list_ports_go_err plst Ls [] hmap
    refine ⟨j, hj, x, hxj, ?_⟩
    simp only [List.nil_append]
    rw [List.mem_flatten]
    refine ⟨Ls[i], ?_, hxi⟩
    have h1 : (Ls.take j)[i]? = some Ls[i] := by
      simp [List.getElem?_take, hij, List.getElem?_eq_getElem hi]
    exact List.getElem?_mem h1

/-- Witness for the amended C2 at concrete inputs: each raising condition
exercised on scanners 1,2,3 with 64 ports each. -/
theorem c2_amended_witness :
    isErr (list_ports np3 [portChars 4 1]) = true ∧
    isErr (list_ports np3 [portChars 1 65]) = true ∧
    isErr (list_ports np3 [rangeChars 1 1 4 1]) = true ∧
    isErr (list_ports np3 [rangeChars 1 0 2 1]) = true ∧
    isErr (list_ports np3 [rangeChars 1 1 2 65]) = true ∧
    isErr (list_ports np3 [rangeChars 1 1 1 3, portChars 1 2]) = true := by
  refine ⟨?_, ?_, ?_, ?_, ?_, ?_⟩
  · exact c2_amended.1 np3 4 1 (by norm_num) (by norm_num) rfl
  · exact c2_amended.2.1 np3 1 65 64 (by norm_num) (by norm_num) rfl (by norm_num)
  · exact c2_amended.2.2.1 np3 1 1 4 1 (by norm_num) (by norm_num) (by norm_num)
      (by norm_num) ⟨4, by norm_num, by norm_num, rfl⟩
  · exact c2_amended.2.2.2.1 np3 1 2 1 (by norm_num) (by norm_num) (by norm_num)
  · exact c2_amended.2.2.2.2.1 np3 1 1 2 65 64 (by norm_num) (by norm_num)
      (by norm_num) (by norm_num) rfl (by norm_num)
  · exact c2_amended.2.2.2.2.2.1 np3 [rangeChars 1 1 1 3, portChars 1 2]
      [[101, 102, 103], [102]] 0 1 (by norm_num) (by norm_num) 102 rfl
      (by norm_num) (by norm_num) (by norm_num)

/-! ### Claim C7 -/

/-- C7: the claim says `count` succeeds exactly where `expand` succeeds and
returns the length of the expansion.  Evaluating both at the single-port
specification `["101"]` on scanners 1,2,3 with 64 ports each: `expand`
returns `[101]` but `count` raises, because `count_ports_aux` passes the
split list itself (rather than its first element) to `scanner_port`, whose
string rendering is never three characters long. -/
theorem c7_count_eval :
    list_ports np3 [portChars 1 1] = .ok [101] ∧
    isErr (count_ports np3 [portChars 1 1]) = true := ⟨rfl, rfl⟩

/-! ### Claim C10 -/

/-- C10 counterexample: the claim says a specification in which the same
scanner id occurs in more than one group is rejected, but
`Scanners([("1-2",64,1),("2-3",32,1)])` is accepted, and the later group
silently overrides the earlier one in the derived map (scanner 2 maps to
32, not 64). -/
theorem c10_counterexample :
    (scannersInit [.triple (.str (natChars 1 ++ Char.ofNat 45 :: natChars 2)) 64 1,
                   .triple (.str (natChars 2 ++ Char.ofNat 45 :: natChars 3)) 32 1] 64 1).map
        (fun m => (m.nports 1, m.nports 2, m.nports 3)) =
      .ok (some 64, some 32, some 32) := rfl

/-- The ports-per-scanner of the last group whose id list contains `s`. -/
def lastGroupNpp (s : Nat) : List ScnGroup → Option Nat
  | [] => none
  | g :: rest =>
    match lastGroupNpp s rest with
    | some n => some n
    | none => if s ∈ g.ids then some g.npp else none

theorem idsFold_eq (npp : Nat) (ids : List Nat) :
    ∀ (d : Nat → Option Nat) (s : Nat),
      (ids.foldl (fun d i => fun k => if k = i then some npp else d k) d) s =
        if s ∈ ids then some npp else d s := by
  induction ids with
  | nil => intro d s; simp
  | cons i rest ih =>
    intro d s
    rw [List.foldl_cons, ih]
    by_cases hmem : s ∈ rest
    · simp [hmem]
    · by_cases hsi : s = i
      · simp [hmem, hsi]
      · simp [hmem, hsi]

theorem buildNports_foldl_eq (gs : List ScnGroup) :
    ∀ (d : Nat → Option Nat) (s : Nat),
      (gs.foldl
        (fun d g => g.ids.foldl (fun d i => fun k => if k = i then some g.npp else d k) d)
        d) s =
      match lastGroupNpp s gs with
      | some n => some n
      | none => d s := by
  induction gs with
  | nil => intro d s; simp [lastGroupNpp]
  | cons g rest ih =>
    intro d s
    rw [List.foldl_cons, ih, lastGroupNpp]
    cases lastGroupNpp s rest with
    | some n => rfl
    | none =>
      rw [idsFold_eq]
      by_cases hmem : s ∈ g.ids <;> simp [hmem]

theorem buildNports_eq_last (gs : List ScnGroup) (s : Nat) :
    buildNports gs s = lastGroupNpp s gs := by
  rw [buildNports, buildNports_foldl_eq]
  cases lastGroupNpp s gs <;> rfl

/-- C10 amended: the scanner-spec parser performs no duplicate-id check —
every specification whose groups parse is accepted — and when a scanner id
occurs in more than one group, the derived scanner-id → ports-per-scanner
map takes the value of the LAST group containing the id (later groups
silently override earlier ones). -/
theorem c10_amended :
    ∀ (scn : List ScnItem) (npp lrn : Nat) (m : ScannersModel),
      scannersInit scn npp lrn = .ok m →
      ∀ s : Nat, m.nports s = lastGroupNpp s m.scanners := by
  intro scn npp lrn m h s
  rw [scannersInit] at h
  cases hmap : scn.mapM (parse_scanner npp lrn) with
  | error e => rw [hmap] at h; simp [exBind_error] at h
  | ok gs =>
    rw [hmap, exBind_ok] at h
    cases h
    exact buildNports_eq_last gs s

/-- Witness for the amended C10 at the duplicated specification
`[("1-2",64,1),("2-3",32,1)]`, queried at scanner id 2. -/
theorem c10_amended_witness :
    (ScannersModel.mk [ScnGroup.mk (List.range' 1 2) 64 1, ScnGroup.mk (List.range' 2 2) 32 1]
        (buildNports [ScnGroup.mk (List.range' 1 2) 64 1, ScnGroup.mk (List.range' 2 2) 32 1])).nports 2 =
      lastGroupNpp 2 [ScnGroup.mk (List.range' 1 2) 64 1, ScnGroup.mk (List.range' 2 2) 32 1] :=
  c10_amended
    [.triple (.str (natChars 1 ++ Char.ofNat 45 :: natChars 2)) 64 1,
     .triple (.str (natChars 2 ++ Char.ofNat 45 :: natChars 3)) 32 1] 64 1 _ rfl 2

/-! ### Claim C8: `sd1args` and the wire-argument round trip -/

/-- The `ss` local of `Scanners.group_str`: `"a-b"` when the group has more
than one scanner, else `"a"` (Python indexes `s[0]` and `s[-1]`; on the
empty list that raises, modelled here by `headD`/`getLastD` defaults — the
round-trip theorem assumes non-empty groups). -/
def rangeRender (g : ScnGroup) : List Char :=
  if g.ids.length > 1 then
    natChars (g.ids.headD 0) ++ Char.ofNat 45 :: natChars (g.ids.getLastD 0)
  else natChars (g.ids.headD 0)

/-- Embedding of `Scanners.group_str`: the rendered wire-argument group
`"(ss, npp, lrn)"`. -/
def group_str (g : ScnGroup) : List Char :=
  Char.ofNat 40 ::
    rangeRender g ++
    Char.ofNat 44 :: Char.ofNat 32 :: natChars g.npp ++
    Char.ofNat 44 :: Char.ofNat 32 :: natChars g.lrn ++ [Char.ofNat 41]

/-- Embedding of `Scanners.sd1args`: the rendered groups joined by single
spaces. -/
def sd1args (m : ScannersModel) : List Char :=
  List.intercalate [Char.ofNat 32] (m.scanners.map group_str)

/-- Modelled from the spec: the source has no parser for rendered
wire-argument groups (the `Scanners` constructor consumes structured
Python values, not strings of the form `"(range, npp, lrn)"`), so the
spec's round-trip — `render_wire_args()` followed by `parse()` of the
rendered arguments — is embedded by decomposing each rendered group into
its three comma-separated components and feeding them back to the
scanner-spec parser as a `(range, npp, lrn)` triple. -/
def parse_group_chars (l : List Char) : Except String ScnItem :=
  if l.headD (Char.ofNat 32) = Char.ofNat 40 ∧ l.getLastD (Char.ofNat 32) = Char.ofNat 41 ∧
      ((pySplit (Char.ofNat 44) ((l.drop 1).dropLast)).map pyStrip).length = 3 then do
    let np ← pyInt (((pySplit (Char.ofNat 44) ((l.drop 1).dropLast)).map pyStrip).getD 1 [])
    let lrn ← pyInt (((pySplit (Char.ofNat 44) ((l.drop 1).dropLast)).map pyStrip).getD 2 [])
    .ok (.triple (.str (((pySplit (Char.ofNat 44) ((l.drop 1).dropLast)).map pyStrip).getD 0 []))
      np lrn)
  else .error "malformed wire-argument group"

/-- Modelled from the spec: parse the rendered wire-argument groups back
through the scanner-spec parser (`Scanners.__init__`). -/
def reparse (ls : List (List Char)) (npp lrn : Nat) : Except String ScannersModel := do
  let items ← ls.mapM parse_group_chars
  scannersInit items npp lrn

theorem pyStrip_of_no_ws {l : List Char} (h : ∀ c ∈ l, c.isWhitespace = false) :
    pyStrip l = l := by
  unfold pyStrip
  rw [dropWhile_eq_self_of_false h,
    dropWhile_eq_self_of_false (fun c hc => h c (List.mem_reverse.1 hc)),
    List.reverse_reverse]

theorem pyStrip_ws_cons {c : Char} (hc : c.isWhitespace = true) (l : List Char) :
    pyStrip (c :: l) = pyStrip l := by
  simp [pyStrip, List.dropWhile_cons, hc]

theorem digitChar_ne_comma : ∀ d, d < 10 → Nat.digitChar d ≠ Char.ofNat 44 := by decide

theorem comma_not_mem_of_digitLike {l : List Char} (h : DigitLike l) :
    Char.ofNat 44 ∉ l := by
  intro hm
  obtain ⟨d, hd, hc⟩ := h _ hm
  exact digitChar_ne_comma d hd hc.symm

theorem digitLike_not_ws {l : List Char} (h : DigitLike l) :
    ∀ c ∈ l, c.isWhitespace = false := by
  intro c hc
  obtain ⟨d, hd, rfl⟩ := h c hc
  exact digitChar_not_ws d hd

theorem digitLike_rangeRender (g : ScnGroup) :
    ∀ c ∈ rangeRender g, c = Char.ofNat 45 ∨ ∃ d, d < 10 ∧ c = Nat.digitChar d := by
  intro c hc
  rw [rangeRender] at hc
  by_cases hlen : g.ids.length > 1
  · rw [if_pos hlen] at hc
    rcases List.mem_append.1 hc with hc | hc
    · exact .inr (digitLike_natChars _ c hc)
    · rcases List.mem_cons.1 hc with rfl | hc
      · exact .inl rfl
      · exact .inr (digitLike_natChars _ c hc)
  · rw [if_neg hlen] at hc
    exact .inr (digitLike_natChars _ c hc)

theorem rangeRender_no_comma (g : ScnGroup) : Char.ofNat 44 ∉ rangeRender g := by
  intro hm
  rcases digitLike_rangeRender g _ hm with h | ⟨d, hd, hc⟩
  · exact absurd h (by decide)
  · exact digitChar_ne_comma d hd hc.symm

theorem rangeRender_no_ws (g : ScnGroup) :
    ∀ c ∈ rangeRender g, c.isWhitespace = false := by
  intro c hc
  rcases digitLike_rangeRender g c hc with rfl | ⟨d, hd, rfl⟩
  · decide
  · exact digitChar_not_ws d hd

theorem parse_group_chars_group_str (g : ScnGroup) :
    parse_group_chars (group_str g) =
      .ok (.triple (.str (rangeRender g)) g.npp g.lrn) := by
  have hform : group_str g =
      Char.ofNat 40 :: ((rangeRender g ++ Char.ofNat 44 ::
        ((Char.ofNat 32 :: natChars g.npp) ++ Char.ofNat 44 ::
          (Char.ofNat 32 :: natChars g.lrn))) ++ [Char.ofNat 41]) := by
    rw [group_str]; simp
  have hbody : ((group_str g).drop 1).dropLast =
      rangeRender g ++ Char.ofNat 44 :: ((Char.ofNat 32 :: natChars g.npp) ++
        Char.ofNat 44 :: (Char.ofNat 32 :: natChars g.lrn)) := by
    rw [hform, List.drop_one, List.tail_cons, List.dropLast_concat]
  have hnpp : Char.ofNat 44 ∉ Char.ofNat 32 :: natChars g.npp := by
    intro hm
    rcases List.mem_cons.1 hm with h | h
    · exact absurd h (by decide)
    · exact comma_not_mem_of_digitLike (digitLike_natChars _) h
  have hlrn : Char.ofNat 44 ∉ Char.ofNat 32 :: natChars g.lrn := by
    intro hm
    rcases List.mem_cons.1 hm with h | h
    · exact absurd h (by decide)
    · exact comma_not_mem_of_digitLike (digitLike_natChars _) h
  have hsplit :
      pySplit (Char.ofNat 44)
        (rangeRender g ++ Char.ofNat 44 :: ((Char.ofNat 32 :: natChars g.npp) ++
          Char.ofNat 44 :: (Char.ofNat 32 :: natChars g.lrn))) =
      [rangeRender g, Char.ofNat 32 :: natChars g.npp, Char.ofNat 32 :: natChars g.lrn] := by
    rw [pySplit_append _ (rangeRender_no_comma g), pySplit_append _ hnpp,
      pySplit_of_not_mem hlrn]
  have hstrip2 : pyStrip (Char.ofNat 32 :: natChars g.npp) = natChars g.npp := by
    rw [pyStrip_ws_cons (by decide), pyStrip_of_no_ws (digitLike_not_ws (digitLike_natChars _))]
  have hstrip3 : pyStrip (Char.ofNat 32 :: natChars g.lrn) = natChars g.lrn := by
    rw [pyStrip_ws_cons (by decide), pyStrip_of_no_ws (digitLike_not_ws (digitLike_natChars _))]
  have hparts : ((pySplit (Char.ofNat 44) (((group_str g).drop 1).dropLast)).map pyStrip) =
      [rangeRender g, natChars g.npp, natChars g.lrn] := by
    rw [hbody, hsplit]
    simp only [List.map_cons, List.map_nil, hstrip2, hstrip3,
      pyStrip_of_no_ws (rangeRender_no_ws g)]
  have hhead : (group_str g).headD (Char.ofNat 32) = Char.ofNat 40 := by
    rw [hform]; rfl
  have hlast : (group_str g).getLastD (Char.ofNat 32) = Char.ofNat 41 := by
    rw [hform, List.getLastD_cons, List.getLastD_concat]
  rw [parse_group_chars, hparts]
  have hcond : (group_str g).headD (Char.ofNat 32) = Char.ofNat 40 ∧
      (group_str g).getLastD (Char.ofNat 32) = Char.ofNat 41 ∧
      ([rangeRender g, natChars g.npp, natChars g.lrn] : List (List Char)).length = 3 :=
    ⟨hhead, hlast, rfl⟩
  rw [if_pos hcond]
  simp [pyInt_natChars, exBind_ok, List.getD]

theorem mapM_loop_nil {α β : Type} (f : α → Except String β) (acc : List β) :
    List.mapM.loop f [] acc = pure acc.reverse := rfl

theorem mapM_loop_cons {α β : Type} (f : α → Except String β) (a : α) (l : List α)
    (acc : List β) :
    List.mapM.loop f (a :: l) acc = f a >>= fun b => List.mapM.loop f l (b :: acc) := rfl

theorem parse_range_two (a b : Nat) :
    parse_range (natChars a ++ Char.ofNat 45 :: natChars b) = .ok [a, b] := by
  rw [parse_range,
    pySplit_append _ (dash_not_mem_of_digitLike (digitLike_natChars a)),
    pySplit_of_not_mem (dash_not_mem_of_digitLike (digitLike_natChars b))]
  simp [mapM_loop_cons, mapM_loop_nil, pyInt_natChars, exBind_ok, pure, Except.pure]

theorem parse_range_one (a : Nat) :
    parse_range (natChars a) = .ok [a] := by
  rw [parse_range, pySplit_of_not_mem (dash_not_mem_of_digitLike (digitLike_natChars a))]
  simp [mapM_loop_cons, mapM_loop_nil, pyInt_natChars, exBind_ok, pure, Except.pure]

theorem range_list_str_two (a b : Nat) :
    range_list (.str (natChars a ++ Char.ofNat 45 :: natChars b)) =
      .ok (List.range' a (b + 1 - a)) := by
  simp only [range_list, parse_range_two, exBind_ok]

theorem range_list_str_one (a : Nat) :
    range_list (.str (natChars a)) = .ok [a] := by
  simp only [range_list, parse_range_one, exBind_ok]

theorem roundtrip_group {npp2 lrn2 : Nat} {g : ScnGroup} {a len : Nat}
    (hlen : 0 < len) (hids : g.ids = List.range' a len) :
    parse_scanner npp2 lrn2 (.triple (.str (rangeRender g)) g.npp g.lrn) = .ok g := by
  have hlength : g.ids.length = len := by rw [hids]; exact List.length_range' ..
  by_cases hgt : 1 < len
  · obtain ⟨len', rfl⟩ : ∃ l2, len = l2 + 1 + 1 := ⟨len - 2, by omega⟩
    have hhead : g.ids.headD 0 = a := by rw [hids, List.range'_succ]; rfl
    have hlastD : g.ids.getLastD 0 = a + (len' + 1) := by
      rw [hids, List.range'_concat, List.getLastD_concat, one_mul]
    have hrr : rangeRender g =
        natChars a ++ Char.ofNat 45 :: natChars (a + (len' + 1)) := by
      rw [rangeRender, if_pos (by rw [hlength]; omega), hhead, hlastD]
    simp only [parse_scanner, hrr, range_list_str_two, exBind_ok]
    have harith : a + (len' + 1) + 1 - a = len' + 1 + 1 := by omega
    rw [harith, ← hids]
  · have hlen1 : len = 1 := by omega
    have hids1 : g.ids = [a] := by rw [hids, hlen1]; rfl
    have hhead : g.ids.headD 0 = a := by rw [hids1]; rfl
    have hrr : rangeRender g = natChars a := by
      rw [rangeRender, if_neg (by rw [hlength, hlen1]; omega), hhead]
    simp only [parse_scanner, hrr, range_list_str_one, exBind_ok]
    rw [← hids1]

theorem range_list_ok_shape {r : RangeSpec} {ids : List Nat}
    (h : range_list r = .ok ids) : ∃ a len, ids = List.range' a len := by
  cases r with
  | int n => rw [range_list] at h; cases h; exact ⟨n, 1, rfl⟩
  | str s =>
    rw [range_list] at h
    cases hp : parse_range s with
    | error e => rw [hp] at h; simp [exBind_error] at h
    | ok lims =>
      rw [hp, exBind_ok] at h
      cases lims with
      | nil => simp at h
      | cons a rest =>
        cases rest with
        | nil => cases h; exact ⟨a, 1, rfl⟩
        | cons b rest2 =>
          cases rest2 with
          | nil => cases h; exact ⟨a, b + 1 - a, rfl⟩
          | cons c r3 => simp at h

theorem parse_scanner_ok_shape {npp lrn : Nat} {s : ScnItem} {g : ScnGroup}
    (h : parse_scanner npp lrn s = .ok g) : ∃ a len, g.ids = List.range' a len := by
  cases s with
  | int n => rw [parse_scanner] at h; cases h; exact ⟨n, 1, rfl⟩
  | str st =>
    rw [parse_scanner] at h
    cases hr : range_list (.str st) with
    | error e => rw [hr] at h; simp [exBind_error] at h
    | ok ids =>
      rw [hr, exBind_ok] at h
      cases h
      exact range_list_ok_shape hr
  | triple r n l =>
    rw [parse_scanner] at h
    cases hr : range_list r with
    | error e => rw [hr] at h; simp [exBind_error] at h
    | ok ids =>
      rw [hr, exBind_ok] at h
      cases h
      exact range_list_ok_shape hr

theorem mapM_ok_mem {α β : Type} {f : α → Except String β} :
    ∀ {l : List α} {bs : List β}, l.mapM f = .ok bs → ∀ b ∈ bs, ∃ a ∈ l, f a = .ok b := by
  intro l
  induction l with
  | nil =>
    intro bs h b hb
    simp only [List.mapM_nil, pure] at h
    cases h
    simp at hb
  | cons x xs ih =>
    intro bs h b hb
    rw [List.mapM_cons] at h
    cases hx : f x with
    | error e => rw [hx] at h; simp [exBind_error] at h
    | ok y =>
      rw [hx] at h
      cases hrest : xs.mapM f with
      | error e => rw [hrest] at h; simp [exBind_ok, exBind_error] at h
      | ok ys =>
        rw [hrest] at h
        simp only [exBind_ok, pure] at h
        cases h
        rcases List.mem_cons.1 hb with rfl | hb2
        · exact ⟨x, List.mem_cons_self x xs, hx⟩
        · obtain ⟨a2, ha2, hfa⟩ := ih hrest b hb2
          exact ⟨a2, List.mem_cons_of_mem _ ha2, hfa⟩

theorem mapM_stages {npp2 lrn2 : Nat} :
    ∀ gs : List ScnGroup,
      (∀ g ∈ gs, ∃ a len, 0 < len ∧ g.ids = List.range' a len) →
      (gs.map group_str).mapM parse_group_chars =
        .ok (gs.map (fun g => ScnItem.triple (.str (rangeRender g)) g.npp g.lrn)) ∧
      (gs.map (fun g => ScnItem.triple (.str (rangeRender g)) g.npp g.lrn)).mapM
        (parse_scanner npp2 lrn2) = .ok gs := by
  intro gs
  induction gs with
  | nil => intro h; exact ⟨rfl, rfl⟩
  | cons g rest ih =>
    intro h
    obtain ⟨a, len, hlen, hids⟩ := h g (List.mem_cons_self g rest)
    obtain ⟨ih1, ih2⟩ := ih (fun g2 hg2 => h g2 (List.mem_cons_of_mem _ hg2))
    constructor
    · rw [List.map_cons, List.mapM_cons, parse_group_chars_group_str, exBind_ok, ih1]
      rfl
    · rw [List.map_cons, List.mapM_cons, roundtrip_group hlen hids, exBind_ok, ih2]
      rfl

/-- C8: for every valid scanner specification (one whose groups parse, each
group covering at least one scanner), rendering the wire arguments with
`group_str`/`sd1args` and parsing the rendered argument groups back through
the scanner-spec parser yields a scanner model with the same group list —
hence the same scanner-id → ports-per-scanner mapping and the same total
channel count. -/
theorem c8_roundtrip :
    ∀ (scn : List ScnItem) (npp lrn npp2 lrn2 : Nat) (m : ScannersModel),
      scannersInit scn npp lrn = .ok m →
      (∀ g ∈ m.scanners, g.ids ≠ []) →
      reparse (m.scanners.map group_str) npp2 lrn2 =
        .ok ⟨m.scanners, buildNports m.scanners⟩ ∧
      ∀ m2 : ScannersModel,
        reparse (m.scanners.map group_str) npp2 lrn2 = .ok m2 →
        m2.scanners = m.scanners ∧ (∀ s, m2.nports s = m.nports s) ∧
        (m2.scanners.map (fun g => g.ids.length * g.npp)).sum =
          (m.scanners.map (fun g => g.ids.length * g.npp)).sum := by
  intro scn npp lrn npp2 lrn2 m hinit hne
  rw [scannersInit] at hinit
  cases hmap : scn.mapM (parse_scanner npp lrn) with
  | error e => rw [hmap] at hinit; simp [exBind_error] at hinit
  | ok gs =>
    rw [hmap, exBind_ok] at hinit
    cases hinit
    have hshape : ∀ g ∈ gs, ∃ a len, 0 < len ∧ g.ids = List.range' a len := by
      intro g hg
      obtain ⟨item, hitem, hpi⟩ := mapM_ok_mem hmap g hg
      obtain ⟨a, len, hal⟩ := parse_scanner_ok_shape hpi
      refine ⟨a, len, ?_, hal⟩
      rcases Nat.eq_zero_or_pos len with rfl | hpos
      · exact absurd (by rw [hal]; rfl) (hne g hg)
      · exact hpos
    have hrt := @mapM_stages npp2 lrn2 gs hshape
    have hrep : reparse (gs.map group_str) npp2 lrn2 = .ok ⟨gs, buildNports gs⟩ := by
      rw [reparse, hrt.1, exBind_ok, scannersInit, hrt.2, exBind_ok]
    refine ⟨hrep, ?_⟩
    intro m2 h2
    rw [hrep] at h2
    cases h2
    exact ⟨rfl, fun s => rfl, rfl⟩

/-- Witness for C8 at the concrete specification `[("1-2", 64, 1)]`. -/
theorem c8_roundtrip_witness :
    reparse ((⟨[⟨List.range' 1 2, 64, 1⟩],
        buildNports [⟨List.range' 1 2, 64, 1⟩]⟩ : ScannersModel).scanners.map group_str) 64 1 =
      .ok ⟨[⟨List.range' 1 2, 64, 1⟩], buildNports [⟨List.range' 1 2, 64, 1⟩]⟩ := by
  have h := c8_roundtrip [.triple (.str (natChars 1 ++ Char.ofNat 45 :: natChars 2)) 64 1]
    64 1 64 1 ⟨[⟨List.range' 1 2, 64, 1⟩], buildNports [⟨List.range' 1 2, 64, 1⟩]⟩
    rfl (by intro g hg; rw [List.mem_singleton] at hg; subst hg; simp)
  exact h.1

/-! ### Packet decoder (`DTCInitiumCore` read methods and `response`) -/

/-- `socket.recv(n)` on the modelled byte stream: exactly `n` bytes or a
transport fault (timeout / short read). -/
def recvN (n : Nat) (s : List Nat) : Except String (List Nat × List Nat) :=
  if n ≤ s.length then .ok (s.take n, s.drop n)
  else .error "transport timeout or short read"

/-- Big-endian unsigned value of a byte list. -/
def beU (bs : List Nat) : Nat := bs.foldl (fun a b => 256 * a + b) 0

/-- Two of-complement reading of a 32-bit big-endian value
(`struct.unpack(">i")`). -/
def toI32 (u : Nat) : Int := if u < 2 ^ 31 then (u : Int) else (u : Int) - 2 ^ 32

/-- `struct.unpack(">i")` of four bytes. -/
def beI32 (bs : List Nat) : Int := toI32 (beU bs)

/-- 16-bit two of-complement value. -/
def toI16 (u : Nat) : Int := if u < 2 ^ 15 then (u : Int) else (u : Int) - 2 ^ 16

/-- 8-bit two of-complement value. -/
def toI8 (u : Nat) : Int := if u < 2 ^ 7 then (u : Int) else (u : Int) - 2 ^ 8

/-- numpy `>i2` decode of consecutive byte pairs. -/
def bytesI16BE : List Nat → List Int
  | a :: b :: rest => toI16 (256 * a + b) :: bytesI16BE rest
  | _ => []

/-- Big-endian 32-bit words of consecutive 4-byte chunks. -/
def bytesU32BE : List Nat → List Nat
  | a :: b :: c :: d :: rest => (((a * 256 + b) * 256 + c) * 256 + d) :: bytesU32BE rest
  | _ => []

/-- numpy `>i4` decode. -/
def bytesI32BE (l : List Nat) : List Int := (bytesU32BE l).map toI32

/-- The packet taxonomy returned by `DTCInitiumCore.response`.  32-bit
floats (types 9 and 19) are kept as raw big-endian bit patterns — no claim
depends on float arithmetic — and the type-17 3-byte stream keeps numpy's
`int8` view of the raw bytes. -/
inductive Packet
  | p04 (code typ msg : Nat) (warn : Int)
  | p128 (code typ msg : Nat) (errcode : Int)
  | p08 (code typ msg : Nat) (value : Int)
  | p09 (code typ msg : Nat) (valueBits : Nat)
  | p33 (code typ msg nrows ncols : Nat) (data : List Int)
  | p16 (code typ msg msnum nvals iutyp stbl nfr cnvt seq : Nat) (data : List Int)
  | p17 (code typ msg msnum nvals iutyp stbl nfr cnvt seq : Nat) (data : List Int)
  | p19 (code typ msg msnum nvals iutyp stbl nfr cnvt seq : Nat) (dataBits : List Nat)
deriving DecidableEq

/-- The packet's wire type tag (the `type` field of the named tuples). -/
def Packet.ptype : Packet → Nat
  | .p04 _ t _ _ => t
  | .p128 _ t _ _ => t
  | .p08 _ t _ _ => t
  | .p09 _ t _ _ => t
  | .p33 _ t _ _ _ _ => t
  | .p16 _ t _ _ _ _ _ _ _ _ _ => t
  | .p17 _ t _ _ _ _ _ _ _ _ _ => t
  | .p19 _ t _ _ _ _ _ _ _ _ _ => t

/-- Embedding of `read_packet04`: four more bytes, a signed warning code. -/
def read_packet04 (c t m : Nat) (s : List Nat) : Except String (Packet × List Nat) := do
  let (w, s2) ← recvN 4 s
  .ok (.p04 c t m (beI32 w), s2)

/-- Embedding of `read_packet128`: four more bytes, the signed device
error code. -/
def read_packet128 (c t m : Nat) (s : List Nat) : Except String (Packet × List Nat) := do
  let (w, s2) ← recvN 4 s
  .ok (.p128 c t m (beI32 w), s2)

/-- Embedding of `read_packet08`: a signed 32-bit integer value. -/
def read_packet08 (c t m : Nat) (s : List Nat) : Except String (Packet × List Nat) := do
  let (w, s2) ← recvN 4 s
  .ok (.p08 c t m (beI32 w), s2)

/-- Embedding of `read_packet09`: a 32-bit float value, kept as bits. -/
def read_packet09 (c t m : Nat) (s : List Nat) : Except String (Packet × List Nat) := do
  let (w, s2) ← recvN 4 s
  .ok (.p09 c t m (beU w), s2)

/-- Embedding of `read_packet33`: `struct.unpack(">HH")` for the row and
column counts, then a `nrows*ncols*4`-byte big-endian `i4` matrix. -/
def read_packet33 (c t m : Nat) (s : List Nat) : Except String (Packet × List Nat) := do
  let (hdr, s2) ← recvN 4 s
  match hdr with
  | [r1, r0, c1, c0] => do
    let (buf, s3) ← recvN ((256 * r1 + r0) * (256 * c1 + c0) * 4) s2
    .ok (.p33 c t m (256 * r1 + r0) (256 * c1 + c0) (bytesI32BE buf), s3)
  | _ => .error "unreachable: recv(4) returned four bytes"

/-- Embedding of `read_packet16`: message number and value count
(`>HH`), a 16-byte metadata block — the source unpacks
`>BBBBBBBBBBBBHBB` and keeps tuple entries 3, 4, 5 (bytes 3..5) and 13, 14
(the two trailing bytes 14 and 15) — then `nvals` big-endian `i2`
samples. -/
def read_packet16 (c t m : Nat) (s : List Nat) : Except String (Packet × List Nat) := do
  let (h4, s2) ← recvN 4 s
  match h4 with
  | [mn1, mn0, nv1, nv0] => do
    let (tpl, s3) ← recvN 16 s2
    let (buf, s4) ← recvN ((256 * nv1 + nv0) * 2) s3
    .ok (.p16 c t m (256 * mn1 + mn0) (256 * nv1 + nv0) (tpl.getD 3 0) (tpl.getD 4 0)
      (tpl.getD 5 0) (tpl.getD 14 0) (tpl.getD 15 0) (bytesI16BE buf), s4)
  | _ => .error "unreachable: recv(4) returned four bytes"

/-- Embedding of `read_packet17`: as type 16 but `nvals*3` raw bytes kept
under numpy's `int8` view. -/
def read_packet17 (c t m : Nat) (s : List Nat) : Except String (Packet × List Nat) := do
  let (h4, s2) ← recvN 4 s
  match h4 with
  | [mn1, mn0, nv1, nv0] => do
    let (tpl, s3) ← recvN 16 s2
    let (buf, s4) ← recvN ((256 * nv1 + nv0) * 3) s3
    .ok (.p17 c t m (256 * mn1 + mn0) (256 * nv1 + nv0) (tpl.getD 3 0) (tpl.getD 4 0)
      (tpl.getD 5 0) (tpl.getD 14 0) (tpl.getD 15 0) (buf.map toI8), s4)
  | _ => .error "unreachable: recv(4) returned four bytes"

/-- Embedding of `read_packet19`: as type 16 but `nvals*4` bytes of 32-bit
big-endian floats, kept as bit patterns. -/
def read_packet19 (c t m : Nat) (s : List Nat) : Except String (Packet × List Nat) := do
  let (h4, s2) ← recvN 4 s
  match h4 with
  | [mn1, mn0, nv1, nv0] => do
    let (tpl, s3) ← recvN 16 s2
    let (buf, s4) ← recvN ((256 * nv1 + nv0) * 4) s3
    .ok (.p19 c t m (256 * mn1 + mn0) (256 * nv1 + nv0) (tpl.getD 3 0) (tpl.getD 4 0)
      (tpl.getD 5 0) (tpl.getD 14 0) (tpl.getD 15 0) (bytesU32BE buf), s4)
  | _ => .error "unreachable: recv(4) returned four bytes"

/-- The if-chain of `DTCInitiumCore.response` after the 4-byte header has
been read: dispatch on the type byte; type 128 raises when `err` is set,
any unknown type always raises. -/
def dispatch (err : Bool) (c t m : Nat) (s : List Nat) : Except String (Packet × List Nat) :=
  if t = 4 then read_packet04 c t m s
  else if t = 8 then read_packet08 c t m s
  else if t = 9 then read_packet09 c t m s
  else if t = 16 then read_packet16 c t m s
  else if t = 17 then read_packet17 c t m s
  else if t = 19 then read_packet19 c t m s
  else if t = 33 then read_packet33 c t m s
  else if t = 128 then do
    let (pack, s2) ← read_packet128 c t m s
    if err then .error "device reported an error"
    else .ok (pack, s2)
  else .error "Unknown packet type"

/-- Embedding of `DTCInitiumCore.response`: read the 4-byte header
`(code: u8, type: u8, msglen: u16 big-endian)`, then dispatch. -/
def response (err : Bool) (s : List Nat) : Except String (Packet × List Nat) := do
  let (h, s2) ← recvN 4 s
  match h with
  | [c, t, m1, m0] => dispatch err c t (256 * m1 + m0) s2
  | _ => .error "unreachable: recv(4) returned four bytes"

theorem recvN_cons4 (a b c d : Nat) (s : List Nat) :
    recvN 4 (a :: b :: c :: d :: s) = .ok ([a, b, c, d], s) := by
  rw [recvN, if_pos (by simp)]
  rfl

theorem recvN_append {n : Nat} {w : List Nat} (rest : List Nat) (h : w.length = n) :
    recvN n (w ++ rest) = .ok (w, rest) := by
  subst h
  rw [recvN, if_pos (by rw [List.length_append]; omega)]
  rw [List.take_left, List.drop_left]

theorem response_cons (err : Bool) (c t m1 m0 : Nat) (s2 : List Nat) :
    response err (c :: t :: m1 :: m0 :: s2) = dispatch err c t (256 * m1 + m0) s2 := by
  rw [response, recvN_cons4, exBind_ok]

theorem read_packet04_eq (c t m : Nat) {w : List Nat} (rest : List Nat)
    (h : w.length = 4) :
    read_packet04 c t m (w ++ rest) = .ok (.p04 c t m (beI32 w), rest) := by
  rw [read_packet04, recvN_append rest h, exBind_ok]

theorem read_packet128_eq (c t m : Nat) {w : List Nat} (rest : List Nat)
    (h : w.length = 4) :
    read_packet128 c t m (w ++ rest) = .ok (.p128 c t m (beI32 w), rest) := by
  rw [read_packet128, recvN_append rest h, exBind_ok]

theorem read_packet08_eq (c t m : Nat) {w : List Nat} (rest : List Nat)
    (h : w.length = 4) :
    read_packet08 c t m (w ++ rest) = .ok (.p08 c t m (beI32 w), rest) := by
  rw [read_packet08, recvN_append rest h, exBind_ok]

theorem read_packet09_eq (c t m : Nat) {w : List Nat} (rest : List Nat)
    (h : w.length = 4) :
    read_packet09 c t m (w ++ rest) = .ok (.p09 c t m (beU w), rest) := by
  rw [read_packet09, recvN_append rest h, exBind_ok]

theorem read_packet33_eq (c t m r1 r0 c1 c0 : Nat) {buf : List Nat} (rest : List Nat)
    (h : buf.length = (256 * r1 + r0) * (256 * c1 + c0) * 4) :
    read_packet33 c t m (r1 :: r0 :: c1 :: c0 :: (buf ++ rest)) =
      .ok (.p33 c t m (256 * r1 + r0) (256 * c1 + c0) (bytesI32BE buf), rest) := by
  simp only [read_packet33, recvN_cons4, exBind_ok]
  rw [recvN_append rest h, exBind_ok]

theorem read_packet16_eq (c t m mn1 mn0 nv1 nv0 : Nat) {tpl buf : List Nat}
    (rest : List Nat) (htpl : tpl.length = 16)
    (hbuf : buf.length = (256 * nv1 + nv0) * 2) :
    read_packet16 c t m (mn1 :: mn0 :: nv1 :: nv0 :: (tpl ++ (buf ++ rest))) =
      .ok (.p16 c t m (256 * mn1 + mn0) (256 * nv1 + nv0) (tpl.getD 3 0) (tpl.getD 4 0)
        (tpl.getD 5 0) (tpl.getD 14 0) (tpl.getD 15 0) (bytesI16BE buf), rest) := by
  simp only [read_packet16, recvN_cons4, exBind_ok]
  rw [recvN_append (buf ++ rest) htpl]
  simp only [exBind_ok]
  rw [recvN_append rest hbuf, exBind_ok]

theorem read_packet17_eq (c t m mn1 mn0 nv1 nv0 : Nat) {tpl buf : List Nat}
    (rest : List Nat) (htpl : tpl.length = 16)
    (hbuf : buf.length = (256 * nv1 + nv0) * 3) :
    read_packet17 c t m (mn1 :: mn0 :: nv1 :: nv0 :: (tpl ++ (buf ++ rest))) =
      .ok (.p17 c t m (256 * mn1 + mn0) (256 * nv1 + nv0) (tpl.getD 3 0) (tpl.getD 4 0)
        (tpl.getD 5 0) (tpl.getD 14 0) (tpl.getD 15 0) (buf.map toI8), rest) := by
  simp only [read_packet17, recvN_cons4, exBind_ok]
  rw [recvN_append (buf ++ rest) htpl]
  simp only [exBind_ok]
  rw [recvN_append rest hbuf, exBind_ok]

theorem read_packet19_eq (c t m mn1 mn0 nv1 nv0 : Nat) {tpl buf : List Nat}
    (rest : List Nat) (htpl : tpl.length = 16)
    (hbuf : buf.length = (256 * nv1 + nv0) * 4) :
    read_packet19 c t m (mn1 :: mn0 :: nv1 :: nv0 :: (tpl ++ (buf ++ rest))) =
      .ok (.p19 c t m (256 * mn1 + mn0) (256 * nv1 + nv0) (tpl.getD 3 0) (tpl.getD 4 0)
        (tpl.getD 5 0) (tpl.getD 14 0) (tpl.getD 15 0) (bytesU32BE buf), rest) := by
  simp only [read_packet19, recvN_cons4, exBind_ok]
  rw [recvN_append (buf ++ rest) htpl]
  simp only [exBind_ok]
  rw [recvN_append rest hbuf, exBind_ok]

/-! ### Claim C3 -/

/-- C3: decoding a response dispatches on the type byte of the 4-byte
header; every known type (4, 8, 9, 16, 17, 19, 33, 128) yields the
corresponding typed packet; an Error packet (type 128) raises a protocol
fault when error-raising is enabled and is returned as ordinary data when
it is disabled; any type outside the known set always raises. -/
theorem c3_response_dispatch :
    (∀ (err : Bool) (c m1 m0 : Nat) (w rest : List Nat), w.length = 4 →
      response err (c :: 4 :: m1 :: m0 :: (w ++ rest)) =
        .ok (.p04 c 4 (256 * m1 + m0) (beI32 w), rest)) ∧
    (∀ (err : Bool) (c m1 m0 : Nat) (w rest : List Nat), w.length = 4 →
      response err (c :: 8 :: m1 :: m0 :: (w ++ rest)) =
        .ok (.p08 c 8 (256 * m1 + m0) (beI32 w), rest)) ∧
    (∀ (err : Bool) (c m1 m0 : Nat) (w rest : List Nat), w.length = 4 →
      response err (c :: 9 :: m1 :: m0 :: (w ++ rest)) =
        .ok (.p09 c 9 (256 * m1 + m0) (beU w), rest)) ∧
    (∀ (err : Bool) (c m1 m0 r1 r0 c1 c0 : Nat) (buf rest : List Nat),
      buf.length = (256 * r1 + r0) * (256 * c1 + c0) * 4 →
      response err (c :: 33 :: m1 :: m0 :: (r1 :: r0 :: c1 :: c0 :: (buf ++ rest))) =
        .ok (.p33 c 33 (256 * m1 + m0) (256 * r1 + r0) (256 * c1 + c0)
          (bytesI32BE buf), rest)) ∧
    (∀ (err : Bool) (c m1 m0 mn1 mn0 nv1 nv0 : Nat) (tpl buf rest : List Nat),
      tpl.length = 16 → buf.length = (256 * nv1 + nv0) * 2 →
      response err (c :: 16 :: m1 :: m0 :: (mn1 :: mn0 :: nv1 :: nv0 :: (tpl ++ (buf ++ rest)))) =
        .ok (.p16 c 16 (256 * m1 + m0) (256 * mn1 + mn0) (256 * nv1 + nv0) (tpl.getD 3 0)
          (tpl.getD 4 0) (tpl.getD 5 0) (tpl.getD 14 0) (tpl.getD 15 0)
          (bytesI16BE buf), rest)) ∧
    (∀ (err : Bool) (c m1 m0 mn1 mn0 nv1 nv0 : Nat) (tpl buf rest : List Nat),
      tpl.length = 16 → buf.length = (256 * nv1 + nv0) * 3 →
      response err (c :: 17 :: m1 :: m0 :: (mn1 :: mn0 :: nv1 :: nv0 :: (tpl ++ (buf ++ rest)))) =
        .ok (.p17 c 17 (256 * m1 + m0) (256 * mn1 + mn0) (256 * nv1 + nv0) (tpl.getD 3 0)
          (tpl.getD 4 0) (tpl.getD 5 0) (tpl.getD 14 0) (tpl.getD 15 0)
          (buf.map toI8), rest)) ∧
    (∀ (err : Bool) (c m1 m0 mn1 mn0 nv1 nv0 : Nat) (tpl buf rest : List Nat),
      tpl.length = 16 → buf.length = (256 * nv1 + nv0) * 4 →
      response err (c :: 19 :: m1 :: m0 :: (mn1 :: mn0 :: nv1 :: nv0 :: (tpl ++ (buf ++ rest)))) =
        .ok (.p19 c 19 (256 * m1 + m0) (256 * mn1 + mn0) (256 * nv1 + nv0) (tpl.getD 3 0)
          (tpl.getD 4 0) (tpl.getD 5 0) (tpl.getD 14 0) (tpl.getD 15 0)
          (bytesU32BE buf), rest)) ∧
    (∀ (c m1 m0 : Nat) (w rest : List Nat), w.length = 4 →
      isErr (response true (c :: 128 :: m1 :: m0 :: (w ++ rest))) = true) ∧
    (∀ (c m1 m0 : Nat) (w rest : List Nat), w.length = 4 →
      response false (c :: 128 :: m1 :: m0 :: (w ++ rest)) =
        .ok (.p128 c 128 (256 * m1 + m0) (beI32 w), rest)) ∧
    (∀ (err : Bool) (c t m1 m0 : Nat) (s2 : List Nat),
      t ∉ ([4, 8, 9, 16, 17, 19, 33, 128] : List Nat) →
      isErr (response err (c :: t :: m1 :: m0 :: s2)) = true) := by
  refine ⟨?_, ?_, ?_, ?_, ?_, ?_, ?_, ?_, ?_, ?_⟩
  · intro err c m1 m0 w rest h
    rw [response_cons, dispatch, if_pos rfl, read_packet04_eq _ _ _ rest h]
  · intro err c m1 m0 w rest h
    rw [response_cons, dispatch]
    norm_num
    rw [read_packet08_eq _ _ _ rest h]
  · intro err c m1 m0 w rest h
    rw [response_cons, dispatch]
    norm_num
    rw [read_packet09_eq _ _ _ rest h]
  · intro err c m1 m0 r1 r0 c1 c0 buf rest h
    rw [response_cons, dispatch]
    norm_num
    rw [read_packet33_eq _ _ _ _ _ _ _ rest h]
  · intro err c m1 m0 mn1 mn0 nv1 nv0 tpl buf rest htpl hbuf
    rw [response_cons, dispatch]
    norm_num
    rw [read_packet16_eq _ _ _ _ _ _ _ rest htpl hbuf]
    simp [List.getD]
  · intro err c m1 m0 mn1 mn0 nv1 nv0 tpl buf rest htpl hbuf
    rw [response_cons, dispatch]
    norm_num
    rw [read_packet17_eq _ _ _ _ _ _ _ rest htpl hbuf]
    simp [List.getD]
  · intro err c m1 m0 mn1 mn0 nv1 nv0 tpl buf rest htpl hbuf
    rw [response_cons, dispatch]
    norm_num
    rw [read_packet19_eq _ _ _ _ _ _ _ rest htpl hbuf]
    simp [List.getD]
  · intro c m1 m0 w rest h
    rw [response_cons, dispatch]
    norm_num
    rw [read_packet128_eq _ _ _ rest h, exBind_ok]
    rfl
  · intro c m1 m0 w rest h
    rw [response_cons, dispatch]
    norm_num
    rw [read_packet128_eq _ _ _ rest h, exBind_ok]
  · intro err c t m1 m0 s2 ht
    simp only [List.mem_cons, List.not_mem_nil, or_false, not_or] at ht
    obtain ⟨h4, h8, h9, h16, h17, h19, h33, h128⟩ := ht
    rw [response_cons, dispatch, if_neg h4, if_neg h8, if_neg h9, if_neg h16, if_neg h17,
      if_neg h19, if_neg h33, if_neg h128]
    rfl

/-- Witness for C3: each dispatch branch exercised on a minimal concrete
byte stream. -/
theorem c3_response_dispatch_witness :
    response true (0 :: 4 :: 0 :: 0 :: ([0, 0, 0, 0] ++ [])) =
      .ok (.p04 0 4 (256 * 0 + 0) (beI32 [0, 0, 0, 0]), []) ∧
    response true (0 :: 8 :: 0 :: 0 :: ([0, 0, 0, 7] ++ [])) =
      .ok (.p08 0 8 (256 * 0 + 0) (beI32 [0, 0, 0, 7]), []) ∧
    response true (0 :: 9 :: 0 :: 0 :: ([63, 128, 0, 0] ++ [])) =
      .ok (.p09 0 9 (256 * 0 + 0) (beU [63, 128, 0, 0]), []) ∧
    response true (0 :: 33 :: 0 :: 0 :: (0 :: 1 :: 0 :: 1 :: ([9, 9, 9, 9] ++ []))) =
      .ok (.p33 0 33 (256 * 0 + 0) (256 * 0 + 1) (256 * 0 + 1)
        (bytesI32BE [9, 9, 9, 9]), []) ∧
    response true (0 :: 16 :: 0 :: 0 :: (0 :: 1 :: 0 :: 1 ::
        ([0, 0, 0, 3, 4, 5, 0, 0, 0, 0, 0, 0, 0, 0, 6, 7] ++ ([1, 2] ++ [])))) =
      .ok (.p16 0 16 (256 * 0 + 0) (256 * 0 + 1) (256 * 0 + 1)
        ([0, 0, 0, 3, 4, 5, 0, 0, 0, 0, 0, 0, 0, 0, 6, 7].getD 3 0)
        ([0, 0, 0, 3, 4, 5, 0, 0, 0, 0, 0, 0, 0, 0, 6, 7].getD 4 0)
        ([0, 0, 0, 3, 4, 5, 0, 0, 0, 0, 0, 0, 0, 0, 6, 7].getD 5 0)
        ([0, 0, 0, 3, 4, 5, 0, 0, 0, 0, 0, 0, 0, 0, 6, 7].getD 14 0)
        ([0, 0, 0, 3, 4, 5, 0, 0, 0, 0, 0, 0, 0, 0, 6, 7].getD 15 0)
        (bytesI16BE [1, 2]), []) ∧
    isErr (response true (0 :: 128 :: 0 :: 4 :: ([0, 0, 0, 7] ++ []))) = true ∧
    response false (0 :: 128 :: 0 :: 4 :: ([0, 0, 0, 7] ++ [])) =
      .ok (.p128 0 128 (256 * 0 + 4) (beI32 [0, 0, 0, 7]), []) ∧
    isErr (response true (0 :: 77 :: 0 :: 0 :: [])) = true := by
  refine ⟨?_, ?_, ?_, ?_, ?_, ?_, ?_, ?_⟩
  · exact c3_response_dispatch.1 true 0 0 0 [0, 0, 0, 0] [] rfl
  · exact c3_response_dispatch.2.1 true 0 0 0 [0, 0, 0, 7] [] rfl
  · exact c3_response_dispatch.2.2.1 true 0 0 0 [63, 128, 0, 0] [] rfl
  · exact c3_response_dispatch.2.2.2.1 true 0 0 0 0 1 0 1 [9, 9, 9, 9] [] (by norm_num)
  · exact c3_response_dispatch.2.2.2.2.1 true 0 0 0 0 1 0 1
      [0, 0, 0, 3, 4, 5, 0, 0, 0, 0, 0, 0, 0, 0, 6, 7] [1, 2] [] rfl (by norm_num)
  · exact c3_response_dispatch.2.2.2.2.2.2.2.1 0 0 4 [0, 0, 0, 7] [] rfl
  · exact c3_response_dispatch.2.2.2.2.2.2.2.2.1 0 0 4 [0, 0, 0, 7] [] rfl
  · exact c3_response_dispatch.2.2.2.2.2.2.2.2.2 true 0 77 0 0 [] (by norm_num)

/-! ### The `DTCInitium` high-level interface -/

/-- Embedding of the `DASetupTable` named tuple. -/
structure DASetupTable where
  stbl : Nat
  nfr : Nat
  nms : Nat
  msd : Nat
  trm : Nat
  scm : Nat
  ocf : Nat
  port : List (List Char)
  nchans : Nat
  fast : Bool
deriving DecidableEq

/-- Wire commands of the modelled methods, carried structurally (their
exact ASCII rendering by `CmdParser` is not claim-relevant). -/
inductive Cmd
  | SD2 (stbl nfr frd nms msd trm scm ocf : Nat)
  | SD3 (stbl : Nat) (port : List (List Char))
  | SD5 (stbl : Int) (actx : Nat)
  | AD2 (stbl nms : Nat)
deriving DecidableEq

/-- Observable connection events of a method call, in program order. -/
inductive Event
  | send (c : Cmd)
  | setTimeout (t : ℚ)
  | recvRow (i nbytes : Nat)
deriving DecidableEq

/-- The mutable state of a `DTCInitium` object, together with the pending
device byte stream standing for the socket's receive side.  `timeout` is
the steady-state value restored after an acquisition; `sockTimeout` is the
socket's current receive timeout. -/
structure DTCState where
  acquiring : Bool
  stbl : Nat → Option DASetupTable
  nports : Nat → Option Nat
  groups : List ScnGroup
  buflen : Nat
  nbytes : Nat
  timeout : ℚ
  sockTimeout : ℚ
  sockIn : List Nat

/-- Embedding of `Scanners.ports_default`: one `"s01-sNN"` range per
scanner of each group. -/
def ports_default (groups : List ScnGroup) : List (List Char) :=
  groups.flatMap (fun g => g.ids.map (fun s =>
    natChars (s * 100 + 1) ++ Char.ofNat 45 :: natChars (s * 100 + g.npp)))

/-- The `DASetupTable` record written by `DTCInitium.config`
(`scm = 1` and `ocf = 2` are fixed by the source). -/
def mkTable (stbl nfr nms msd trm : Nat) (port : List (List Char)) (nchans : Nat)
    (fast : Bool) : DASetupTable :=
  ⟨stbl, nfr, nms, msd, trm, 1, 2, port, nchans, fast⟩

/-- Embedding of `DTCInitium.config`.  Python ordering preserved: the
registry entry `self.stbl[stbl]` is assigned BEFORE the SD2/SD3 wire
exchange, and an exception leaves every mutation made so far in place, so
the result is the (possibly mutated) state, the events issued, and the
outcome.  Bytes consumed by a response that raised are not tracked — no
claim depends on them.  (The source's `def config(...)` line also repeats
the `fast` parameter, a Python syntax slip; the embedding keeps a single
`fast`.) -/
def config (st : DTCState) (stbl nfr nms msd : Nat) (fast : Bool) (trm : Nat)
    (portOpt : Option (List (List Char))) :
    DTCState × List Event × Except String Unit :=
  if st.acquiring then (st, [], .error "No configuration while acquisition going on")
  else if stbl < 1 ∨ 5 < stbl then (st, [], .error "STBL should be between 1 and 5")
  else
    let port := portOpt.getD (ports_default st.groups)
    match list_ports st.nports port with
    | .error e => (st, [], .error e)
    | .ok chans =>
      let st1 := { st with stbl := (fun k =>
        if k = stbl then some (mkTable stbl nfr nms msd trm port chans.length fast)
        else st.stbl k) }
      let ev1 := [Event.send (.SD2 stbl nfr 0 nms msd trm 1 2)]
      match response true st1.sockIn with
      | .error e => (st1, ev1, .error e)
      | .ok (_, rest1) =>
        let st2 := { st1 with sockIn := rest1 }
        let ev2 := ev1 ++ [Event.send (.SD3 stbl port)]
        match response true rest1 with
        | .error e => (st2, ev2, .error e)
        | .ok (_, rest2) => ({ st2 with sockIn := rest2 }, ev2, .ok ())

/-- Embedding of `DTCInitium.allocbuffer`.  Source quirk preserved: when an
explicit `npress` is passed, the `else` branch immediately overwrites it
with the table's `nms`, so the requested row count is ignored. -/
def allocbuffer (st : DTCState) (stbl : Nat) (npressOpt : Option Nat) :
    Except String DTCState :=
  match st.stbl stbl with
  | none => .error "STBL not configured"
  | some t =>
    let npress := match npressOpt with
      | none => st.buflen
      | some _ => t.nms
    let npress := max npress t.nms
    if npress > st.buflen then .ok { st with buflen := npress } else .ok st

/-- The receive loop of `DTCAcquire.acquire`: `nms` rows of `nbytes` bytes
each, row `i` read into buffer row `i` (wall-clock timestamps and buffer
contents are not modelled — no claim depends on them). -/
def recvLoop (nbytes : Nat) : Nat → Nat → List Nat → List Event × Except String (List Nat)
  | _, 0, s => ([], .ok s)
  | i, k + 1, s =>
    match recvN nbytes s with
    | .error e => ([], .error e)
    | .ok (_, s2) =>
      let r := recvLoop nbytes (i + 1) k s2
      (Event.recvRow i nbytes :: r.1, r.2)

/-- Embedding of `DTCAcquire.acquire`: send `AD2 stbl nms`, then receive
the `nms` rows. -/
def dtcacquire_run (nbytes stbl nms : Nat) (s : List Nat) :
    List Event × Except String (List Nat) :=
  (Event.send (.AD2 stbl nms) :: (recvLoop nbytes 0 nms s).1, (recvLoop nbytes 0 nms s).2)

/-- The receive-timeout computation appearing verbatim at both acquisition
call sites (`acquire` and `start`):
`dt = max(nfr * 4, msd); settimeout(max(0.3, 2 * dt * 1e-3))`. -/
def acqTimeout (nfr msd : Nat) : ℚ :=
  max (3 / 10) (2 * (max (nfr * 4) msd : Nat) * (1 / 1000))

/-- Embedding of `DTCInitium.acquire` (blocking acquisition).  The two
guards run first, before any wire traffic; fast mode arms SD5 and consumes
a response; the receive timeout is applied to the socket before
`DTCAcquire.acquire` sends AD2 and receives `nms` rows of
`nchans * 4 + 24` bytes each (the row width `DTCAcquire.__init__` derives
from the table's channel count); the completion response must be an Ack
(type 4); fast mode is then disarmed and the steady-state timeout
restored.  The returned pressure matrix and measured rate are not
modelled — the result is the final state, the events in program order, and
the outcome; a raise returns the events and mutations made so far. -/
def acquire (st : DTCState) (stblArg : Nat) (nmsOpt : Option Nat) :
    DTCState × List Event × Except String Unit :=
  if st.acquiring then
    (st, [], .error "Wait for the acquisition to end before acquiring data again")
  else
    match st.stbl stblArg with
    | none => (st, [], .error "STBL not defined. Used config method to define it.")
    | some t =>
      let nms := nmsOpt.getD t.nms
      let fastEv : List Event := if t.fast then [Event.send (.SD5 (-1) 0)] else []
      match (if t.fast then (response true st.sockIn).map Prod.snd
             else .ok st.sockIn) with
      | .error e => (st, fastEv, .error e)
      | .ok s1 =>
        let tout : ℚ := max (3 / 10) (2 * (max (t.nfr * 4) t.msd : Nat) * (1 / 1000))
        let st1 := { st with sockIn := s1, sockTimeout := tout }
        let run := dtcacquire_run (t.nchans * 4 + 24) stblArg nms s1
        let evs := fastEv ++ Event.setTimeout tout :: run.1
        match run.2 with
        | .error e => (st1, evs, .error e)
        | .ok s2 =>
          match response true s2 with
          | .error e => ({ st1 with sockIn := s2 }, evs, .error e)
          | .ok (p, s3) =>
            if p.ptype ≠ 4 then
              ({ st1 with sockIn := s3 }, evs, .error "Problem reading data")
            else
              match (if t.fast then (response true s3).map Prod.snd else .ok s3) with
              | .error e =>
                ({ st1 with sockIn := s3 },
                  evs ++ (if t.fast then [Event.send (.SD5 (-1) 1)] else []), .error e)
              | .ok s4 =>
                ({ st1 with sockIn := s4, sockTimeout := st.timeout },
                  evs ++ (if t.fast then [Event.send (.SD5 (-1) 1)] else []) ++
                    [Event.setTimeout st.timeout], .ok ())

/-- Embedding of `DTCInitium.start` (background acquisition).  Guards
first; fast-mode arm; timeout applied; then the receive loop — rows of
`nchans * 4 + 24` bytes, as in `acquire` — is handed to the background
thread, modelled sequentially with its first action being the AD2 send,
and `acquiring` is set.  The completion handshake belongs to `read` and is
not modelled here. -/
def start (st : DTCState) (stblArg : Nat) (nmsOpt : Option Nat) :
    DTCState × List Event × Except String Unit :=
  if st.acquiring then
    (st, [], .error "Wait for the acquisition to end before acquiring data again")
  else
    match st.stbl stblArg with
    | none => (st, [], .error "STBL not defined. Used config method to define it.")
    | some t =>
      let nms := nmsOpt.getD t.nms
      let fastEv : List Event := if t.fast then [Event.send (.SD5 (-1) 0)] else []
      match (if t.fast then (response true st.sockIn).map Prod.snd
             else .ok st.sockIn) with
      | .error e => (st, fastEv, .error e)
      | .ok s1 =>
        let tout : ℚ := max (3 / 10) (2 * (max (t.nfr * 4) t.msd : Nat) * (1 / 1000))
        let run := dtcacquire_run (t.nchans * 4 + 24) stblArg nms s1
        let evs := fastEv ++ Event.setTimeout tout :: run.1
        match run.2 with
        | .error e =>
          ({ st with sockIn := s1, sockTimeout := tout, acquiring := true }, evs, .error e)
        | .ok s2 =>
          ({ st with sockIn := s2, sockTimeout := tout, acquiring := true }, evs, .ok ())

/-- A concrete `DTCInitium` state: scanners 1,2,3 at 64 ports each, table 1
configured with nms = 3 (not fast), buffer capacity 5 rows, and a device
Error packet (code 7) pending on the socket. -/
def st0 : DTCState where
  acquiring := false
  stbl := fun k => if k = 1 then some (mkTable 1 1 3 50 0 [portChars 1 1] 1 false) else none
  nports := np3
  groups := [⟨List.range' 1 3, 64, 1⟩]
  buflen := 5
  nbytes := 512 * 4 + 24
  timeout := 1
  sockTimeout := 1
  sockIn := [0, 128, 0, 4, 0, 0, 0, 7]

/-! ### Claim C4 -/

/-- C4 counterexample: the claim says a non-Ack reply to the configuration
commands leaves the setup-table registry entry uncreated, but
`config` assigns `self.stbl[stbl]` before the SD2/SD3 exchange: with a
device Error packet pending, configuring table 2 raises AND the registry
now holds the new entry for table 2. -/
theorem c4_counterexample :
    isErr (config st0 2 1 1 50 false 0 (some [portChars 1 1])).2.2 = true ∧
    (config st0 2 1 1 50 false 0 (some [portChars 1 1])).1.stbl 2 =
      some (mkTable 2 1 1 50 0 [portChars 1 1] 1 false) := ⟨rfl, rfl⟩

/-- C4 amended: when the device replies to either configuration command
(SD2 table parameters, then SD3 port assignment) with a non-Ack (Error)
response, `config` raises the device-reported fault and issues no further
commands — but the setup-table registry entry for the table id has already
been created/replaced before the wire exchange, so it remains in the
registry after the failed call. -/
theorem c4_amended :
    ∀ (st : DTCState) (stbl nfr nms msd : Nat) (fast : Bool) (trm : Nat)
      (port : List (List Char)) (chans : List Nat),
      st.acquiring = false → 1 ≤ stbl → stbl ≤ 5 →
      list_ports st.nports port = .ok chans →
      (isErr (response true st.sockIn) = true →
        isErr (config st stbl nfr nms msd fast trm (some port)).2.2 = true ∧
        (config st stbl nfr nms msd fast trm (some port)).1.stbl stbl =
          some (mkTable stbl nfr nms msd trm port chans.length fast) ∧
        (config st stbl nfr nms msd fast trm (some port)).2.1 =
          [Event.send (.SD2 stbl nfr 0 nms msd trm 1 2)]) ∧
      (∀ (p : Packet) (rest : List Nat),
        response true st.sockIn = .ok (p, rest) →
        isErr (response true rest) = true →
        isErr (config st stbl nfr nms msd fast trm (some port)).2.2 = true ∧
        (config st stbl nfr nms msd fast trm (some port)).1.stbl stbl =
          some (mkTable stbl nfr nms msd trm port chans.length fast) ∧
        (config st stbl nfr nms msd fast trm (some port)).2.1 =
          [Event.send (.SD2 stbl nfr 0 nms msd trm 1 2),
           Event.send (.SD3 stbl port)]) := by
  intro st stbl nfr nms msd fast trm port chans hacq h1 h5 hlp
  have hrange : ¬(stbl < 1 ∨ 5 < stbl) := by omega
  constructor
  · intro hresp
    cases hr : response true st.sockIn with
    | ok pr => rw [hr] at hresp; simp [isErr] at hresp
    | error e =>
      simp only [config, hacq, Bool.false_eq_true, if_false, hrange, Option.getD_some,
        hlp, hr]
      refine ⟨rfl, by simp, by trivial⟩
  · intro p rest hr hresp2
    cases hr2 : response true rest with
    | ok pr2 => rw [hr2] at hresp2; simp [isErr] at hresp2
    | error e =>
      simp only [config, hacq, Bool.false_eq_true, if_false, hrange, Option.getD_some,
        hlp, hr, hr2]
      refine ⟨rfl, by simp, by trivial⟩

/-- Witness for the amended C4: the SD2-rejected case on `st0` (Error
packet pending) and the SD3-rejected case on a stream with an Ack then an
Error packet. -/
theorem c4_amended_witness :
    (isErr (config st0 2 1 1 50 false 0 (some [portChars 1 1])).2.2 = true ∧
      (config st0 2 1 1 50 false 0 (some [portChars 1 1])).1.stbl 2 =
        some (mkTable 2 1 1 50 0 [portChars 1 1] 1 false) ∧
      (config st0 2 1 1 50 false 0 (some [portChars 1 1])).2.1 =
        [Event.send (.SD2 2 1 0 1 50 0 1 2)]) ∧
    (isErr (config { st0 with sockIn := [0, 4, 0, 0, 0, 0, 0, 0, 0, 128, 0, 4, 0, 0, 0, 9] }
        3 1 1 50 false 0 (some [portChars 1 1])).2.2 = true ∧
      (config { st0 with sockIn := [0, 4, 0, 0, 0, 0, 0, 0, 0, 128, 0, 4, 0, 0, 0, 9] }
        3 1 1 50 false 0 (some [portChars 1 1])).1.stbl 3 =
        some (mkTable 3 1 1 50 0 [portChars 1 1] 1 false) ∧
      (config { st0 with sockIn := [0, 4, 0, 0, 0, 0, 0, 0, 0, 128, 0, 4, 0, 0, 0, 9] }
        3 1 1 50 false 0 (some [portChars 1 1])).2.1 =
        [Event.send (.SD2 3 1 0 1 50 0 1 2), Event.send (.SD3 3 [portChars 1 1])]) := by
  constructor
  · exact (c4_amended st0 2 1 1 50 false 0 [portChars 1 1] [101] rfl (by norm_num)
      (by norm_num) rfl).1 rfl
  · exact (c4_amended { st0 with sockIn := [0, 4, 0, 0, 0, 0, 0, 0, 0, 128, 0, 4, 0, 0, 0, 9] }
      3 1 1 50 false 0 [portChars 1 1] [101] rfl (by norm_num) (by norm_num) rfl).2
      (.p04 0 4 0 0) [0, 128, 0, 4, 0, 0, 0, 9] rfl rfl

/-! ### Claim C5 -/

/-- C5: `acquire` and `start` each raise a state-conflict fault when an
acquisition session is already active, and each raise when the table id
has no configured setup-table entry; in both cases no wire traffic is
issued (the event list is empty). -/
theorem c5_guards :
    (∀ (st : DTCState) (a : Nat) (b : Option Nat), st.acquiring = true →
      isErr (acquire st a b).2.2 = true ∧ (acquire st a b).2.1 = [] ∧
      isErr (start st a b).2.2 = true ∧ (start st a b).2.1 = []) ∧
    (∀ (st : DTCState) (a : Nat) (b : Option Nat), st.stbl a = none →
      isErr (acquire st a b).2.2 = true ∧ (acquire st a b).2.1 = [] ∧
      isErr (start st a b).2.2 = true ∧ (start st a b).2.1 = []) := by
  constructor
  · intro st a b h
    simp [acquire, start, h, isErr]
  · intro st a b h
    by_cases hacq : st.acquiring = true
    · simp [acquire, start, hacq, isErr]
    · simp only [Bool.not_eq_true] at hacq
      simp [acquire, start, hacq, h, isErr]

/-- Witness for C5: a busy connection rejects both calls, and table 2
(unconfigured on `st0`) is rejected before any traffic. -/
theorem c5_guards_witness :
    (isErr (acquire { st0 with acquiring := true } 1 none).2.2 = true ∧
      (acquire { st0 with acquiring := true } 1 none).2.1 = [] ∧
      isErr (start { st0 with acquiring := true } 1 none).2.2 = true ∧
      (start { st0 with acquiring := true } 1 none).2.1 = []) ∧
    (isErr (acquire st0 2 none).2.2 = true ∧ (acquire st0 2 none).2.1 = [] ∧
      isErr (start st0 2 none).2.2 = true ∧ (start st0 2 none).2.1 = []) :=
  ⟨c5_guards.1 { st0 with acquiring := true } 1 none rfl,
   c5_guards.2 st0 2 none rfl⟩

/-! ### Claim C6 -/

/-- C6: the claim says requesting an acquisition of N rows grows the
buffer to at least N rows when capacity is below N.  Evaluating
`allocbuffer` on `st0` (capacity 5, table 1 with nms = 3) with an explicit
request for 10 rows: the state is returned unchanged — capacity stays 5 —
because the passed row count is overwritten by the table's nms. -/
theorem c6_allocbuffer_eval :
    allocbuffer st0 1 (some 10) = .ok st0 ∧ st0.buflen = 5 ∧
    (st0.stbl 1).map DASetupTable.nms = some 3 := ⟨rfl, rfl, rfl⟩

/-! ### Claim C9 -/

/-- The `st0` variant whose table 1 has the fast-mode flag set (a device
Error packet is pending on the socket, so the fast-arm response
faults). -/
def stF : DTCState :=
  { st0 with stbl := (fun k =>
      if k = 1 then some (mkTable 1 1 3 50 0 [portChars 1 1] 1 true) else none) }

/-- `stF` with an Ack packet pending instead, so the fast-arm response
succeeds. -/
def stFok : DTCState := { stF with sockIn := [0, 4, 0, 0, 0, 0, 0, 0] }

/-- C9: for every configured table, both the blocking `acquire` and the
background `start` set the receive timeout to `max(0.3, 2·dt·1e-3)` with
`dt = max(nfr·4, msd)` — the same formula at both call sites, derived from
the table's frame count and minimum-sample-delay — before issuing the AD2
acquisition-start command.  For a table without fast mode the wire trace
begins `[setTimeout, AD2]`; for a fast-mode table it begins
`[SD5 arm, setTimeout, AD2]` once the arm response succeeds, and when the
arm response faults the call aborts after the SD5 send alone, so no AD2 is
ever issued without the timeout having been set directly before it. -/
theorem c9_timeout :
    (∀ nfr msd : Nat, acqTimeout nfr msd =
      max (3 / 10 : ℚ) (2 * ((max (nfr * 4) msd : Nat) : ℚ) * (1 / 1000))) ∧
    (∀ (st : DTCState) (a : Nat) (b : Option Nat) (t : DASetupTable),
      st.acquiring = false → st.stbl a = some t → t.fast = false →
      (acquire st a b).2.1.take 2 =
        [Event.setTimeout (acqTimeout t.nfr t.msd), Event.send (.AD2 a (b.getD t.nms))] ∧
      (start st a b).2.1.take 2 =
        [Event.setTimeout (acqTimeout t.nfr t.msd), Event.send (.AD2 a (b.getD t.nms))]) ∧
    (∀ (st : DTCState) (a : Nat) (b : Option Nat) (t : DASetupTable)
      (pr : Packet × List Nat),
      st.acquiring = false → st.stbl a = some t → t.fast = true →
      response true st.sockIn = .ok pr →
      (acquire st a b).2.1.take 3 =
        [Event.send (.SD5 (-1) 0), Event.setTimeout (acqTimeout t.nfr t.msd),
         Event.send (.AD2 a (b.getD t.nms))] ∧
      (start st a b).2.1.take 3 =
        [Event.send (.SD5 (-1) 0), Event.setTimeout (acqTimeout t.nfr t.msd),
         Event.send (.AD2 a (b.getD t.nms))]) ∧
    (∀ (st : DTCState) (a : Nat) (b : Option Nat) (t : DASetupTable) (e : String),
      st.acquiring = false → st.stbl a = some t → t.fast = true →
      response true st.sockIn = .error e →
      (acquire st a b).2.1 = [Event.send (.SD5 (-1) 0)] ∧
      isErr (acquire st a b).2.2 = true ∧
      (∀ (s n : Nat), Event.send (.AD2 s n) ∉ (acquire st a b).2.1) ∧
      (start st a b).2.1 = [Event.send (.SD5 (-1) 0)] ∧
      isErr (start st a b).2.2 = true ∧
      (∀ (s n : Nat), Event.send (.AD2 s n) ∉ (start st a b).2.1)) := by
  refine ⟨fun nfr msd => rfl, ?_, ?_, ?_⟩
  · intro st a b t hacq htbl hfast
    constructor
    · simp only [acquire, hacq, Bool.false_eq_true, if_false, htbl, hfast,
        dtcacquire_run, acqTimeout]
      split <;> try rfl
      all_goals try (split <;> try rfl)
      all_goals try (split <;> try rfl)
    · simp only [start, hacq, Bool.false_eq_true, if_false, htbl, hfast,
        dtcacquire_run, acqTimeout]
      split <;> rfl
  · intro st a b t pr hacq htbl hfast hresp
    constructor
    · simp only [acquire, hacq, Bool.false_eq_true, if_false, htbl, hfast, if_true,
        hresp, Except.map, dtcacquire_run, acqTimeout]
      split <;> try rfl
      all_goals try (split <;> try rfl)
      all_goals try (split <;> try rfl)
      all_goals try (split <;> try rfl)
    · simp only [start, hacq, Bool.false_eq_true, if_false, htbl, hfast, if_true,
        hresp, Except.map, dtcacquire_run, acqTimeout]
      split <;> rfl
  · intro st a b t e hacq htbl hfast hresp
    have hA : acquire st a b = (st, [Event.send (.SD5 (-1) 0)], .error e) := by
      simp only [acquire, hacq, Bool.false_eq_true, if_false, htbl, hfast, if_true,
        hresp, Except.map]
    have hS : start st a b = (st, [Event.send (.SD5 (-1) 0)], .error e) := by
      simp only [start, hacq, Bool.false_eq_true, if_false, htbl, hfast, if_true,
        hresp, Except.map]
    refine ⟨by rw [hA], by rw [hA]; rfl, ?_, by rw [hS], by rw [hS]; rfl, ?_⟩
    · intro s n
      rw [hA]
      simp
    · intro s n
      rw [hS]
      simp

/-- Witness for C9: the non-fast table of `st0`, the fast table of `stFok`
(arm Ack pending), and the fast table of `stF` (arm Error pending). -/
theorem c9_timeout_witness :
    ((acquire st0 1 none).2.1.take 2 =
        [Event.setTimeout (acqTimeout 1 50), Event.send (.AD2 1 3)] ∧
      (start st0 1 none).2.1.take 2 =
        [Event.setTimeout (acqTimeout 1 50), Event.send (.AD2 1 3)]) ∧
    ((acquire stFok 1 none).2.1.take 3 =
        [Event.send (.SD5 (-1) 0), Event.setTimeout (acqTimeout 1 50),
         Event.send (.AD2 1 3)] ∧
      (start stFok 1 none).2.1.take 3 =
        [Event.send (.SD5 (-1) 0), Event.setTimeout (acqTimeout 1 50),
         Event.send (.AD2 1 3)]) ∧
    ((acquire stF 1 none).2.1 = [Event.send (.SD5 (-1) 0)] ∧
      isErr (acquire stF 1 none).2.2 = true ∧
      (start stF 1 none).2.1 = [Event.send (.SD5 (-1) 0)] ∧
      isErr (start stF 1 none).2.2 = true) := by
  refine ⟨?_, ?_, ?_⟩
  · have h := c9_timeout.2.1 st0 1 none (mkTable 1 1 3 50 0 [portChars 1 1] 1 false)
      rfl rfl rfl
    exact ⟨h.1, h.2⟩
  · have h := c9_timeout.2.2.1 stFok 1 none (mkTable 1 1 3 50 0 [portChars 1 1] 1 true)
      (Packet.p04 0 4 0 0, []) rfl rfl rfl rfl
    exact ⟨h.1, h.2⟩
  · have h := c9_timeout.2.2.2 stF 1 none (mkTable 1 1 3 50 0 [portChars 1 1] 1 true)
      "device reported an error" rfl rfl rfl rfl
    exact ⟨h.1, h.2.1, h.2.2.2.1, h.2.2.2.2.1⟩
